import Mathlib

/-!
# Finders of `internal/service/securityhub/find.go`

A shallow embedding of the six lookup helpers of the Security Hub service
package and of the pieces of their environment they call into:

* Go pointers are `Option` (`none` is the nil pointer), Go slices are lists;
* a closure that assigns to a captured variable becomes a function that
  threads that variable as explicit state;
* a nil pointer dereference is the outcome `Run.nilDeref`;
* the upstream client `conn` is a record of the answers the service gives to
  each request.
-/

namespace Securityhub

/-! ## Go runtime and SDK helpers -/

/-- Outcome of running a piece of Go code: it returns a value, or the goroutine
panics on a nil pointer dereference. -/
inductive Run (α : Type) where
  | done (a : α)
  | nilDeref
  deriving DecidableEq, Repr

/-- The helper `aws.StringValue`: the string a `*string` points to, the empty
string for a nil pointer. -/
def aws.StringValue : Option String → String
  | some s => s
  | none => ""

/-- The helper `aws.StringSlice`: a slice of pointers to the given strings. -/
def aws.StringSlice (ss : List String) : List (Option String) :=
  ss.map some

/-- Whether `s` begins with `p` (characters compared one by one). -/
def startsWith : List Char → List Char → Bool
  | _, [] => true
  | [], _ :: _ => false
  | c :: s, d :: p => c == d && startsWith s p

/-- Whether `sub` occurs in `s` at some offset. -/
def containsAt : List Char → List Char → Bool
  | [], sub => startsWith [] sub
  | c :: s, sub => startsWith (c :: s) sub || containsAt s sub

/-- The function `strings.Contains`. -/
def strings.Contains (s substr : String) : Bool :=
  containsAt s.data substr.data

/-- An error value handed back by the upstream client: either an
`awserr.Error`, which carries a code and a message, or any other Go error
(a cancelled context, a transport failure). -/
inductive UpstreamError where
  | awsErr (code message : String)
  | other (text : String)
  deriving DecidableEq, Repr

/-- The function `tfawserr.ErrCodeEquals` for one code: the error is an
`awserr.Error` with that code. A nil error never matches. -/
def tfawserr.ErrCodeEquals (err : Option UpstreamError) (code : String) : Bool :=
  match err with
  | some (.awsErr c _) => c == code
  | _ => false

/-- The function `tfawserr.ErrMessageContains`: the error is an `awserr.Error`
with that code whose message contains the given text. -/
def tfawserr.ErrMessageContains (err : Option UpstreamError) (code message : String) : Bool :=
  match err with
  | some (.awsErr c m) => c == code && strings.Contains m message
  | _ => false

/-- The SDK constant `securityhub.ErrCodeResourceNotFoundException`. -/
def ErrCodeResourceNotFoundException : String := "ResourceNotFoundException"

/-- The SDK constant `securityhub.ErrCodeInvalidAccessException`. -/
def ErrCodeInvalidAccessException : String := "InvalidAccessException"

/-- The SDK constant `securityhub.StandardsStatusFailed`. -/
def StandardsStatusFailed : String := "FAILED"

/-! ## Typed errors of the provider -/

/-- The struct `resource.NotFoundError`, with the three fields the finders set. -/
structure resource.NotFoundError (Req : Type) where
  LastError : Option UpstreamError
  LastRequest : Req
  Message : String
  deriving DecidableEq, Repr

/-- A non-nil Go `error` as a finder returns it: the upstream error itself,
or one of the three typed errors. -/
inductive Error (Req : Type) where
  | upstream (e : UpstreamError)
  | notFound (e : resource.NotFoundError Req)
  | emptyResult (lastRequest : Req)
  | tooManyResults (count : Nat) (lastRequest : Req)
  deriving DecidableEq, Repr

/-- Modelled from the spec: the constructor `tfresource.NewEmptyResultError`
of the package `internal/tfresource`, an empty-result error that carries the
request. -/
def tfresource.NewEmptyResultError {Req : Type} (lastRequest : Req) : Error Req :=
  .emptyResult lastRequest

/-- Modelled from the spec: the constructor `tfresource.NewTooManyResultsError`
of the package `internal/tfresource`, a too-many-results error that carries the
observed count and the request. -/
def tfresource.NewTooManyResultsError {Req : Type} (count : Nat) (lastRequest : Req) : Error Req :=
  .tooManyResults count lastRequest

/-! ## Records, requests and responses of the service -/

structure AdminAccount where
  AccountId : Option String
  Status : Option String
  deriving DecidableEq, Repr

structure Insight where
  InsightArn : Option String
  Name : Option String
  deriving DecidableEq, Repr

structure StandardsControl where
  StandardsControlArn : Option String
  ControlId : Option String
  ControlStatus : Option String
  deriving DecidableEq, Repr

structure StandardsSubscription where
  StandardsArn : Option String
  StandardsSubscriptionArn : Option String
  StandardsStatus : Option String
  deriving DecidableEq, Repr

structure ListOrganizationAdminAccountsInput where
  MaxResults : Option Int
  deriving DecidableEq, Repr

structure ListOrganizationAdminAccountsOutput where
  AdminAccounts : List (Option AdminAccount)
  deriving DecidableEq, Repr

structure GetInsightsInput where
  InsightArns : List (Option String)
  MaxResults : Option Int
  deriving DecidableEq, Repr

structure GetInsightsOutput where
  Insights : List (Option Insight)
  deriving DecidableEq, Repr

structure DescribeStandardsControlsInput where
  StandardsSubscriptionArn : Option String
  deriving DecidableEq, Repr

structure DescribeStandardsControlsOutput where
  Controls : List (Option StandardsControl)
  deriving DecidableEq, Repr

structure GetEnabledStandardsInput where
  StandardsSubscriptionArns : List (Option String)
  deriving DecidableEq, Repr

structure GetEnabledStandardsOutput where
  StandardsSubscriptions : List (Option StandardsSubscription)
  deriving DecidableEq, Repr

/-! ## The upstream client and its pagination primitive -/

/-- What the service answers to one paginated request: the pages it serves in
order (a page may come back as a nil pointer) and, when `err` is set, the
error with which the request for the page after them fails. The last page
carries no continuation token exactly when no error follows it. -/
structure Listing (P : Type) where
  pages : List (Option P)
  err : Option UpstreamError
  deriving DecidableEq, Repr

/-- The client handle `*securityhub.SecurityHub`, as the answers the service
gives to each request. -/
structure SecurityHub where
  ListOrganizationAdminAccounts :
    ListOrganizationAdminAccountsInput → Listing ListOrganizationAdminAccountsOutput
  GetInsights : GetInsightsInput → Option GetInsightsOutput × Option UpstreamError
  DescribeStandardsControls :
    DescribeStandardsControlsInput → Listing DescribeStandardsControlsOutput
  GetEnabledStandards : GetEnabledStandardsInput → Listing GetEnabledStandardsOutput

/-- What a `...PagesWithContext` call leaves behind: the final value of the
variable captured by the page callback, the error the call returns, and the
number of page requests it issued. -/
structure Paged (σ : Type) where
  state : σ
  err : Option UpstreamError
  requests : Nat
  deriving DecidableEq, Repr

/-- Modelled from the spec: the pagination primitive of the upstream client
(the SDK loop behind every `...PagesWithContext` method). Pages are requested
one after the other; each page is handed to the callback together with the
flag `lastPage`; the next page is requested only when the callback returned
true; a failed request ends the walk with its error, and a walk that the
callback stopped, or that ran out of pages, returns no error. `n` counts the
requests issued so far. -/
def paginate {P σ : Type} (err : Option UpstreamError)
    (fn : σ → Option P → Bool → Run (σ × Bool)) :
    List (Option P) → σ → Nat → Run (Paged σ)
  | [], s, n =>
    match err with
    | none => .done ⟨s, none, n⟩
    | some e => .done ⟨s, some e, n + 1⟩
  | page :: rest, s, n =>
    match fn s page (rest.isEmpty && err.isNone) with
    | .nilDeref => .nilDeref
    | .done (s', true) => paginate err fn rest s' (n + 1)
    | .done (s', false) => .done ⟨s', none, n + 1⟩

/-- Run the pagination primitive over a listing, from the given initial value
of the captured variable. -/
def Listing.PagesWithContext {P σ : Type} (l : Listing P)
    (fn : σ → Option P → Bool → Run (σ × Bool)) (init : σ) : Run (Paged σ) :=
  paginate l.err fn l.pages init 0

/-- The method `ListOrganizationAdminAccountsPagesWithContext`. -/
def SecurityHub.ListOrganizationAdminAccountsPagesWithContext {σ : Type} (conn : SecurityHub)
    (input : ListOrganizationAdminAccountsInput)
    (fn : σ → Option ListOrganizationAdminAccountsOutput → Bool → Run (σ × Bool))
    (init : σ) : Run (Paged σ) :=
  (conn.ListOrganizationAdminAccounts input).PagesWithContext fn init

/-- The method `GetInsightsWithContext`. -/
def SecurityHub.GetInsightsWithContext (conn : SecurityHub) (input : GetInsightsInput) :
    Option GetInsightsOutput × Option UpstreamError :=
  conn.GetInsights input

/-- The method `DescribeStandardsControlsPagesWithContext`. -/
def SecurityHub.DescribeStandardsControlsPagesWithContext {σ : Type} (conn : SecurityHub)
    (input : DescribeStandardsControlsInput)
    (fn : σ → Option DescribeStandardsControlsOutput → Bool → Run (σ × Bool))
    (init : σ) : Run (Paged σ) :=
  (conn.DescribeStandardsControls input).PagesWithContext fn init

/-- The method `GetEnabledStandardsPagesWithContext`. -/
def SecurityHub.GetEnabledStandardsPagesWithContext {σ : Type} (conn : SecurityHub)
    (input : GetEnabledStandardsInput)
    (fn : σ → Option GetEnabledStandardsOutput → Bool → Run (σ × Bool))
    (init : σ) : Run (Paged σ) :=
  (conn.GetEnabledStandards input).PagesWithContext fn init

/-! ## The finders -/

/-- The `for` loop of the page callback of `FindAdminAccount`: nil entries are
skipped, the first entry whose account id equals the target is returned. -/
def FindAdminAccount.scan (adminAccountID : String) :
    List (Option AdminAccount) → Option AdminAccount
  | [] => none
  | none :: rest => FindAdminAccount.scan adminAccountID rest
  | some adminAccount :: rest =>
    if aws.StringValue adminAccount.AccountId == adminAccountID then some adminAccount
    else FindAdminAccount.scan adminAccountID rest

/-- The page callback of `FindAdminAccount`; the state is the captured
variable `result`. -/
def FindAdminAccount.fn (adminAccountID : String) (result : Option AdminAccount)
    (page : Option ListOrganizationAdminAccountsOutput) (lastPage : Bool) :
    Run (Option AdminAccount × Bool) :=
  match page with
  | none => .done (result, !lastPage)
  | some page =>
    match FindAdminAccount.scan adminAccountID page.AdminAccounts with
    | some adminAccount => .done (some adminAccount, false)
    | none => .done (result, !lastPage)

/-- The finder `FindAdminAccount`: returns `result, err`. -/
def FindAdminAccount (conn : SecurityHub) (adminAccountID : String) :
    Run (Option AdminAccount × Option (Error ListOrganizationAdminAccountsInput)) :=
  let input : ListOrganizationAdminAccountsInput := { MaxResults := none }
  match conn.ListOrganizationAdminAccountsPagesWithContext input
      (FindAdminAccount.fn adminAccountID) none with
  | .nilDeref => .nilDeref
  | .done r => .done (r.state, r.err.map Error.upstream)

/-- The finder `FindInsight`. -/
def FindInsight (conn : SecurityHub) (arn : String) :
    Run (Option Insight × Option (Error GetInsightsInput)) :=
  let input : GetInsightsInput :=
    { InsightArns := aws.StringSlice [arn], MaxResults := some 1 }
  match conn.GetInsightsWithContext input with
  | (_, some err) => .done (none, some (.upstream err))
  | (none, none) => .done (none, none)
  | (some output, none) =>
    match output.Insights with
    | [] => .done (none, none)
    | first :: _ => .done (first, none)

/-- The `for` loop of the page callback of the standards-control finder. It has
no nil check: reading the field of a nil entry panics. -/
def FindStandardsControl.scan (standardsControlARN : String) :
    List (Option StandardsControl) → Run (Option StandardsControl)
  | [] => .done none
  | none :: _ => .nilDeref
  | some control :: rest =>
    if aws.StringValue control.StandardsControlArn == standardsControlARN then .done (some control)
    else FindStandardsControl.scan standardsControlARN rest

/-- The page callback of the standards-control finder; the state is the
captured variable `output`. -/
def FindStandardsControl.fn (standardsControlARN : String) (output : Option StandardsControl)
    (page : Option DescribeStandardsControlsOutput) (lastPage : Bool) :
    Run (Option StandardsControl × Bool) :=
  match page with
  | none => .done (output, !lastPage)
  | some page =>
    match FindStandardsControl.scan standardsControlARN page.Controls with
    | .nilDeref => .nilDeref
    | .done (some control) => .done (some control, false)
    | .done none => .done (output, !lastPage)

/-- The finder `FindStandardsControlByStandardsSubscriptionARNAndStandardsControlARN`. -/
def FindStandardsControlByStandardsSubscriptionARNAndStandardsControlARN (conn : SecurityHub)
    (standardsSubscriptionARN standardsControlARN : String) :
    Run (Option StandardsControl × Option (Error DescribeStandardsControlsInput)) :=
  let input : DescribeStandardsControlsInput :=
    { StandardsSubscriptionArn := some standardsSubscriptionARN }
  match conn.DescribeStandardsControlsPagesWithContext input
      (FindStandardsControl.fn standardsControlARN) none with
  | .nilDeref => .nilDeref
  | .done r =>
    if tfawserr.ErrCodeEquals r.err ErrCodeResourceNotFoundException then
      .done (none, some (.notFound { LastError := r.err, LastRequest := input, Message := "" }))
    else
      match r.err with
      | some err => .done (none, some (.upstream err))
      | none =>
        match r.state with
        | none => .done (none, some (tfresource.NewEmptyResultError input))
        | some output => .done (some output, none)

/-- The page callback of `FindStandardsSubscriptions`; the state is the
captured slice `output`, to which every non-nil entry of the page is appended. -/
def FindStandardsSubscriptions.fn (output : List (Option StandardsSubscription))
    (page : Option GetEnabledStandardsOutput) (lastPage : Bool) :
    Run (List (Option StandardsSubscription) × Bool) :=
  match page with
  | none => .done (output, !lastPage)
  | some page => .done (output ++ page.StandardsSubscriptions.filter Option.isSome, !lastPage)

/-- The finder `FindStandardsSubscriptions`. -/
def FindStandardsSubscriptions (conn : SecurityHub) (input : GetEnabledStandardsInput) :
    Run (List (Option StandardsSubscription) × Option (Error GetEnabledStandardsInput)) :=
  match conn.GetEnabledStandardsPagesWithContext input FindStandardsSubscriptions.fn [] with
  | .nilDeref => .nilDeref
  | .done r =>
    if tfawserr.ErrCodeEquals r.err ErrCodeResourceNotFoundException then
      .done ([], some (.notFound { LastError := r.err, LastRequest := input, Message := "" }))
    else if tfawserr.ErrMessageContains r.err ErrCodeInvalidAccessException
        "not subscribed to AWS Security Hub" then
      .done ([], some (.notFound { LastError := r.err, LastRequest := input, Message := "" }))
    else
      match r.err with
      | some err => .done ([], some (.upstream err))
      | none => .done (r.state, none)

/-- The finder `FindStandardsSubscription`. -/
def FindStandardsSubscription (conn : SecurityHub) (input : GetEnabledStandardsInput) :
    Run (Option StandardsSubscription × Option (Error GetEnabledStandardsInput)) :=
  match FindStandardsSubscriptions conn input with
  | .nilDeref => .nilDeref
  | .done (_, some err) => .done (none, some err)
  | .done (output, none) =>
    if output.length == 0 || output.head? == some none then
      .done (none, some (tfresource.NewEmptyResultError input))
    else if output.length > 1 then
      .done (none, some (tfresource.NewTooManyResultsError output.length input))
    else
      .done (output.head?.join, none)

/-- The finder `FindStandardsSubscriptionByARN`. Reading `output.StandardsStatus`
dereferences the returned record, so a nil record with a nil error would
panic. -/
def FindStandardsSubscriptionByARN (conn : SecurityHub) (arn : String) :
    Run (Option StandardsSubscription × Option (Error GetEnabledStandardsInput)) :=
  let input : GetEnabledStandardsInput :=
    { StandardsSubscriptionArns := aws.StringSlice [arn] }
  match FindStandardsSubscription conn input with
  | .nilDeref => .nilDeref
  | .done (_, some err) => .done (none, some err)
  | .done (none, none) => .nilDeref
  | .done (some output, none) =>
    if aws.StringValue output.StandardsStatus == StandardsStatusFailed then
      .done (none, some (.notFound
        { LastError := none, LastRequest := input, Message := aws.StringValue output.StandardsStatus }))
    else
      .done (some output, none)

/-! ## Vocabulary of the specification -/

/-- All admin-account entries of a listing, page after page; a nil page
contributes nothing. -/
def adminEntries : List (Option ListOrganizationAdminAccountsOutput) → List (Option AdminAccount)
  | [] => []
  | none :: rest => adminEntries rest
  | some page :: rest => page.AdminAccounts ++ adminEntries rest

/-- All control entries of a listing, page after page; a nil page contributes
nothing. -/
def controlEntries : List (Option DescribeStandardsControlsOutput) → List (Option StandardsControl)
  | [] => []
  | none :: rest => controlEntries rest
  | some page :: rest => page.Controls ++ controlEntries rest

/-- All subscription entries of a listing, page after page; a nil page
contributes nothing. -/
def subscriptionEntries : List (Option GetEnabledStandardsOutput) → List (Option StandardsSubscription)
  | [] => []
  | none :: rest => subscriptionEntries rest
  | some page :: rest => page.StandardsSubscriptions ++ subscriptionEntries rest

/-- The entries of a page that may be nil. -/
def pageAdminAccounts : Option ListOrganizationAdminAccountsOutput → List (Option AdminAccount)
  | none => []
  | some page => page.AdminAccounts

/-- The entries of a page that may be nil. -/
def pageControls : Option DescribeStandardsControlsOutput → List (Option StandardsControl)
  | none => []
  | some page => page.Controls

/-- The entries of a page that may be nil. -/
def pageSubscriptions : Option GetEnabledStandardsOutput → List (Option StandardsSubscription)
  | none => []
  | some page => page.StandardsSubscriptions

/-! ## Sample data -/

/-- A client that serves the same answers whatever the request. -/
def clientServing (admin : Listing ListOrganizationAdminAccountsOutput)
    (insights : Option GetInsightsOutput × Option UpstreamError)
    (controls : Listing DescribeStandardsControlsOutput)
    (subscriptions : Listing GetEnabledStandardsOutput) : SecurityHub :=
  { ListOrganizationAdminAccounts := fun _ => admin
    GetInsights := fun _ => insights
    DescribeStandardsControls := fun _ => controls
    GetEnabledStandards := fun _ => subscriptions }

/-- A listing of admin accounts only. -/
def adminClient (admin : Listing ListOrganizationAdminAccountsOutput) : SecurityHub :=
  clientServing admin (none, none) ⟨[], none⟩ ⟨[], none⟩

/-- A listing of standards controls only. -/
def controlClient (controls : Listing DescribeStandardsControlsOutput) : SecurityHub :=
  clientServing ⟨[], none⟩ (none, none) controls ⟨[], none⟩

/-- A listing of enabled standards only. -/
def subscriptionClient (subscriptions : Listing GetEnabledStandardsOutput) : SecurityHub :=
  clientServing ⟨[], none⟩ (none, none) ⟨[], none⟩ subscriptions

def accountA : AdminAccount := { AccountId := some "111111111111", Status := some "ENABLED" }

def accountB : AdminAccount := { AccountId := some "222222222222", Status := some "ENABLED" }

/-- An admin-account record that comes without an account id. -/
def accountNoId : AdminAccount := { AccountId := none, Status := some "DISABLE_IN_PROGRESS" }

/-- An admin-account record whose account id is the empty string. -/
def accountEmptyId : AdminAccount := { AccountId := some "", Status := some "ENABLED" }

def controlA : StandardsControl :=
  { StandardsControlArn := some "arn:control/a", ControlId := some "A.1", ControlStatus := some "ENABLED" }

def controlB : StandardsControl :=
  { StandardsControlArn := some "arn:control/b", ControlId := some "B.1", ControlStatus := some "DISABLED" }

def subscriptionReady : StandardsSubscription :=
  { StandardsArn := some "arn:standards/cis", StandardsSubscriptionArn := some "arn:subscription/cis",
    StandardsStatus := some "READY" }

def subscriptionFailed : StandardsSubscription :=
  { StandardsArn := some "arn:standards/pci", StandardsSubscriptionArn := some "arn:subscription/pci",
    StandardsStatus := some "FAILED" }

def insightA : Insight := { InsightArn := some "arn:insight/a", Name := some "open findings" }

/-- An upstream failure with the resource-not-found code. -/
def errResourceNotFound : UpstreamError :=
  .awsErr "ResourceNotFoundException" "subscription does not exist"

/-- An upstream failure with the invalid-access code, as the service words it
for an account that has not enabled Security Hub. -/
def errNotSubscribed : UpstreamError :=
  .awsErr "InvalidAccessException" "Account 111111111111 is not subscribed to AWS Security Hub"

/-- An upstream failure with the invalid-access code and another message. -/
def errInvalidAccess : UpstreamError :=
  .awsErr "InvalidAccessException" "caller is not the administrator account"

/-- An upstream failure that is no service error. -/
def errCancelled : UpstreamError := .other "context canceled"

/-! ## The pagination primitive -/

theorem paginate_cons {P σ : Type} (err : Option UpstreamError)
    (fn : σ → Option P → Bool → Run (σ × Bool)) (page : Option P) (rest : List (Option P))
    (s : σ) (n : Nat) :
    paginate err fn (page :: rest) s n =
      match fn s page (rest.isEmpty && err.isNone) with
      | .nilDeref => .nilDeref
      | .done (s', true) => paginate err fn rest s' (n + 1)
      | .done (s', false) => .done ⟨s', none, n + 1⟩ := rfl

theorem paginate_skip {P σ : Type} (err : Option UpstreamError)
    (fn : σ → Option P → Bool → Run (σ × Bool)) (s : σ) (q : Option P) (post : List (Option P)) :
    ∀ (pre : List (Option P)) (n : Nat), (∀ p ∈ pre, fn s p false = .done (s, true)) →
      paginate err fn (pre ++ q :: post) s n = paginate err fn (q :: post) s (n + pre.length) := by
  intro pre
  induction pre with
  | nil => intro n _; simp
  | cons p pre ih =>
    intro n h
    have hp : fn s p false = .done (s, true) := h p (List.mem_cons_self _ _)
    have hrest : ∀ p' ∈ pre, fn s p' false = .done (s, true) :=
      fun p' hp' => h p' (List.mem_cons_of_mem _ hp')
    have hflag : ((pre ++ q :: post).isEmpty && err.isNone) = false := by
      cases pre <;> simp
    rw [List.cons_append, paginate_cons, hflag, hp]
    simp only [List.length_cons]
    rw [ih (n + 1) hrest]
    congr 1
    omega

theorem paginate_subscriptions (err : Option UpstreamError) :
    ∀ (pages : List (Option GetEnabledStandardsOutput)) (out : List (Option StandardsSubscription))
      (n : Nat),
      paginate err FindStandardsSubscriptions.fn pages out n =
        .done ⟨out ++ (subscriptionEntries pages).filter Option.isSome, err,
          n + pages.length + (if err.isSome then 1 else 0)⟩ := by
  intro pages
  induction pages with
  | nil =>
    intro out n
    cases err <;> simp [paginate, subscriptionEntries]
  | cons p rest ih =>
    intro out n
    cases hflag : (rest.isEmpty && err.isNone)
    · cases p <;>
        simp [paginate, FindStandardsSubscriptions.fn, hflag, ih, subscriptionEntries] <;> omega
    · have hr : rest = [] := by
        cases rest with
        | nil => rfl
        | cons a b => simp at hflag
      have he : err = none := by
        cases err with
        | none => rfl
        | some e => simp at hflag
      subst hr; subst he
      cases p <;> simp [paginate, FindStandardsSubscriptions.fn, subscriptionEntries]

/-! ## Listing and reducing standards subscriptions -/

theorem FindStandardsSubscriptions_eq (conn : SecurityHub) (input : GetEnabledStandardsInput) :
    FindStandardsSubscriptions conn input =
      if tfawserr.ErrCodeEquals (conn.GetEnabledStandards input).err
          ErrCodeResourceNotFoundException then
        .done ([], some (.notFound
          { LastError := (conn.GetEnabledStandards input).err, LastRequest := input, Message := "" }))
      else if tfawserr.ErrMessageContains (conn.GetEnabledStandards input).err
          ErrCodeInvalidAccessException "not subscribed to AWS Security Hub" then
        .done ([], some (.notFound
          { LastError := (conn.GetEnabledStandards input).err, LastRequest := input, Message := "" }))
      else
        match (conn.GetEnabledStandards input).err with
        | some err => .done ([], some (.upstream err))
        | none =>
          .done ((subscriptionEntries (conn.GetEnabledStandards input).pages).filter Option.isSome,
            none) := by
  simp only [FindStandardsSubscriptions, SecurityHub.GetEnabledStandardsPagesWithContext,
    Listing.PagesWithContext, paginate_subscriptions, List.nil_append]

theorem FindStandardsSubscriptions_success (conn : SecurityHub) (input : GetEnabledStandardsInput)
    (L : List (Option StandardsSubscription))
    (h : FindStandardsSubscriptions conn input = .done (L, none)) :
    (conn.GetEnabledStandards input).err = none ∧
      L = (subscriptionEntries (conn.GetEnabledStandards input).pages).filter Option.isSome := by
  rw [FindStandardsSubscriptions_eq] at h
  split at h
  · simp at h
  · split at h
    · simp at h
    · split at h
      · simp at h
      · rename_i he
        refine ⟨he, ?_⟩
        simp only [Run.done.injEq, Prod.mk.injEq, and_true] at h
        exact h.symm

theorem FindStandardsSubscriptions_of_no_error (conn : SecurityHub)
    (input : GetEnabledStandardsInput) (h : (conn.GetEnabledStandards input).err = none) :
    FindStandardsSubscriptions conn input =
      .done ((subscriptionEntries (conn.GetEnabledStandards input).pages).filter Option.isSome,
        none) := by
  rw [FindStandardsSubscriptions_eq, h]
  simp [tfawserr.ErrCodeEquals, tfawserr.ErrMessageContains]

/-- C1: `FindStandardsSubscription` enforces exactly-one semantics over
`FindStandardsSubscriptions`. Whenever the listing succeeds with a list `L`,
the reduction returns an empty-result error carrying the request when `L` is
empty, a too-many-results error (with the length of `L` as count) when `L` has
more than one entry, and otherwise the sole entry of `L`, which is not nil,
with a nil error. -/
theorem C1_FindStandardsSubscription_exactly_one (conn : SecurityHub)
    (input : GetEnabledStandardsInput) (L : List (Option StandardsSubscription))
    (h : FindStandardsSubscriptions conn input = .done (L, none)) :
    (L.length = 0 →
      FindStandardsSubscription conn input =
        .done (none, some (tfresource.NewEmptyResultError input))) ∧
    (1 < L.length →
      FindStandardsSubscription conn input =
        .done (none, some (tfresource.NewTooManyResultsError L.length input))) ∧
    (∀ x, L = [x] →
      x ≠ none ∧ FindStandardsSubscription conn input = .done (x, none)) := by
  have hL := (FindStandardsSubscriptions_success conn input L h).2
  have hsome : ∀ y ∈ L, y.isSome = true := by
    intro y hy
    rw [hL] at hy
    exact (List.mem_filter.mp hy).2
  refine ⟨?_, ?_, ?_⟩
  · intro h0
    have : L = [] := List.length_eq_zero.mp h0
    subst this
    simp [FindStandardsSubscription, h]
  · intro h1
    cases L with
    | nil => simp at h1
    | cons y ys =>
      have hy := hsome y (List.mem_cons_self _ _)
      cases y with
      | none => simp at hy
      | some v =>
        simp only [List.length_cons] at h1
        have : ys.length + 1 > 1 := h1
        simp [FindStandardsSubscription, h, this]
  · intro x hx
    subst hx
    have hy := hsome x (List.mem_cons_self _ _)
    cases x with
    | none => simp at hy
    | some v => simp [FindStandardsSubscription, h]

/-! ## Scanning admin accounts -/

theorem scan_admin_append (acct : String) (xs ys : List (Option AdminAccount)) :
    FindAdminAccount.scan acct (xs ++ ys) =
      (FindAdminAccount.scan acct xs).or (FindAdminAccount.scan acct ys) := by
  induction xs with
  | nil => simp [FindAdminAccount.scan]
  | cons x xs ih =>
    cases x with
    | none => simpa [FindAdminAccount.scan] using ih
    | some a =>
      by_cases hm : aws.StringValue a.AccountId = acct
      · simp [FindAdminAccount.scan, hm]
      · simpa [FindAdminAccount.scan, hm] using ih

theorem scan_admin_eq_none_iff (acct : String) (xs : List (Option AdminAccount)) :
    FindAdminAccount.scan acct xs = none ↔
      ∀ a, some a ∈ xs → aws.StringValue a.AccountId ≠ acct := by
  induction xs with
  | nil => simp [FindAdminAccount.scan]
  | cons x xs ih =>
    cases x with
    | none => simpa [FindAdminAccount.scan] using ih
    | some a =>
      by_cases hm : aws.StringValue a.AccountId = acct
      · simp [FindAdminAccount.scan, hm]
      · simp [FindAdminAccount.scan, hm, ih]

theorem scan_admin_eq_head_filter (acct : String) (xs : List (Option AdminAccount)) :
    FindAdminAccount.scan acct xs =
      ((xs.filterMap id).filter (fun a => aws.StringValue a.AccountId == acct)).head? := by
  induction xs with
  | nil => simp [FindAdminAccount.scan]
  | cons x xs ih =>
    cases x with
    | none => simpa [FindAdminAccount.scan] using ih
    | some a =>
      by_cases hm : aws.StringValue a.AccountId = acct
      · simp [FindAdminAccount.scan, hm]
      · simpa [FindAdminAccount.scan, hm] using ih

theorem paginate_admin (acct : String) (err : Option UpstreamError) :
    ∀ (pages : List (Option ListOrganizationAdminAccountsOutput)) (s : Option AdminAccount)
      (n : Nat), ∃ k,
      paginate err (FindAdminAccount.fn acct) pages s n =
        .done ⟨(FindAdminAccount.scan acct (adminEntries pages)).or s,
          if (FindAdminAccount.scan acct (adminEntries pages)).isSome then none else err, k⟩ := by
  intro pages
  induction pages with
  | nil =>
    intro s n
    cases err <;> simp [paginate, adminEntries, FindAdminAccount.scan]
  | cons p rest ih =>
    intro s n
    have hlast : (rest.isEmpty && err.isNone) = true → rest = [] ∧ err = none := by
      intro h
      cases rest with
      | nil => cases err <;> simp_all
      | cons a b => simp at h
    cases p with
    | none =>
      cases hflag : (rest.isEmpty && err.isNone)
      · obtain ⟨k, hk⟩ := ih s (n + 1)
        exact ⟨k, by simp [paginate_cons, FindAdminAccount.fn, hflag, hk, adminEntries]⟩
      · obtain ⟨h1, h2⟩ := hlast hflag
        subst h1; subst h2
        exact ⟨n + 1, by
          simp [paginate_cons, FindAdminAccount.fn, adminEntries,
            FindAdminAccount.scan]⟩
    | some pg =>
      cases hscan : FindAdminAccount.scan acct pg.AdminAccounts with
      | some a =>
        exact ⟨n + 1, by
          simp [paginate_cons, FindAdminAccount.fn, hscan, adminEntries, scan_admin_append]⟩
      | none =>
        cases hflag : (rest.isEmpty && err.isNone)
        · obtain ⟨k, hk⟩ := ih s (n + 1)
          exact ⟨k, by
            simp [paginate_cons, FindAdminAccount.fn, hflag, hk, adminEntries, hscan,
              scan_admin_append]⟩
        · obtain ⟨h1, h2⟩ := hlast hflag
          subst h1; subst h2
          exact ⟨n + 1, by
            simp [paginate_cons, FindAdminAccount.fn, adminEntries, hscan,
              scan_admin_append, FindAdminAccount.scan]⟩

theorem paginate_admin_stop (acct : String) (err : Option UpstreamError)
    (pre post : List (Option ListOrganizationAdminAccountsOutput))
    (pg : ListOrganizationAdminAccountsOutput) (a : AdminAccount)
    (hpre : ∀ p ∈ pre, FindAdminAccount.scan acct (pageAdminAccounts p) = none)
    (hpg : FindAdminAccount.scan acct pg.AdminAccounts = some a) (s : Option AdminAccount)
    (n : Nat) :
    paginate err (FindAdminAccount.fn acct) (pre ++ some pg :: post) s n =
      .done ⟨some a, none, n + pre.length + 1⟩ := by
  rw [paginate_skip]
  · simp [paginate_cons, FindAdminAccount.fn, hpg]
  · intro p hp
    have := hpre p hp
    cases p with
    | none => simp [FindAdminAccount.fn]
    | some q => simp [FindAdminAccount.fn, pageAdminAccounts] at this ⊢; simp [this]

theorem FindAdminAccount_of_no_error (conn : SecurityHub) (acct : String)
    (herr : (conn.ListOrganizationAdminAccounts { MaxResults := none }).err = none) :
    FindAdminAccount conn acct =
      .done (FindAdminAccount.scan acct
        (adminEntries (conn.ListOrganizationAdminAccounts { MaxResults := none }).pages), none) := by
  obtain ⟨k, hk⟩ := paginate_admin acct none
    (conn.ListOrganizationAdminAccounts { MaxResults := none }).pages none 0
  simp only [FindAdminAccount, SecurityHub.ListOrganizationAdminAccountsPagesWithContext,
    Listing.PagesWithContext, herr, hk]
  simp

/-! ## Scanning standards controls -/

theorem scan_control_append (target : String) (xs ys : List (Option StandardsControl)) :
    FindStandardsControl.scan target (xs ++ ys) =
      match FindStandardsControl.scan target xs with
      | .nilDeref => .nilDeref
      | .done (some c) => .done (some c)
      | .done none => FindStandardsControl.scan target ys := by
  induction xs with
  | nil => simp [FindStandardsControl.scan]
  | cons x xs ih =>
    cases x with
    | none => simp [FindStandardsControl.scan]
    | some c =>
      by_cases hm : aws.StringValue c.StandardsControlArn = target
      · simp [FindStandardsControl.scan, hm]
      · simpa [FindStandardsControl.scan, hm] using ih

theorem scan_control_no_match (target : String) (xs : List StandardsControl)
    (h : ∀ c ∈ xs, aws.StringValue c.StandardsControlArn ≠ target) :
    FindStandardsControl.scan target (xs.map some) = .done none := by
  induction xs with
  | nil => simp [FindStandardsControl.scan]
  | cons x xs ih =>
    have hx := h x (List.mem_cons_self _ _)
    simp only [List.map_cons, FindStandardsControl.scan, beq_iff_eq, hx, if_false]
    exact ih (fun c hc => h c (List.mem_cons_of_mem _ hc))

theorem scan_control_first_match (target : String) (pre : List StandardsControl)
    (c : StandardsControl) (post : List (Option StandardsControl))
    (hpre : ∀ x ∈ pre, aws.StringValue x.StandardsControlArn ≠ target)
    (hc : aws.StringValue c.StandardsControlArn = target) :
    FindStandardsControl.scan target (pre.map some ++ some c :: post) = .done (some c) := by
  rw [scan_control_append, scan_control_no_match target pre hpre]
  simp [FindStandardsControl.scan, hc]

theorem paginate_control (target : String) (err : Option UpstreamError) :
    ∀ (pages : List (Option DescribeStandardsControlsOutput)) (s : Option StandardsControl)
      (n : Nat),
      match FindStandardsControl.scan target (controlEntries pages) with
      | .nilDeref => paginate err (FindStandardsControl.fn target) pages s n = .nilDeref
      | .done (some c) => ∃ k,
          paginate err (FindStandardsControl.fn target) pages s n = .done ⟨some c, none, k⟩
      | .done none => ∃ k,
          paginate err (FindStandardsControl.fn target) pages s n = .done ⟨s, err, k⟩ := by
  intro pages
  induction pages with
  | nil =>
    intro s n
    cases err <;> simp [paginate, controlEntries, FindStandardsControl.scan]
  | cons p rest ih =>
    intro s n
    have hlast : (rest.isEmpty && err.isNone) = true → rest = [] ∧ err = none := by
      intro h
      cases rest with
      | nil => cases err <;> simp_all
      | cons a b => simp at h
    cases p with
    | none =>
      cases hflag : (rest.isEmpty && err.isNone)
      · have := ih s (n + 1)
        simpa [paginate_cons, FindStandardsControl.fn, hflag, controlEntries] using this
      · obtain ⟨h1, h2⟩ := hlast hflag
        subst h1; subst h2
        simp [paginate_cons, FindStandardsControl.fn, controlEntries, FindStandardsControl.scan]
    | some pg =>
      simp only [controlEntries, scan_control_append]
      cases hscan : FindStandardsControl.scan target pg.Controls with
      | nilDeref => simp [paginate_cons, FindStandardsControl.fn, hscan]
      | done r =>
        cases r with
        | some c => simp [paginate_cons, FindStandardsControl.fn, hscan]
        | none =>
          cases hflag : (rest.isEmpty && err.isNone)
          · have := ih s (n + 1)
            simpa [paginate_cons, FindStandardsControl.fn, hflag, hscan] using this
          · obtain ⟨h1, h2⟩ := hlast hflag
            subst h1; subst h2
            simp [paginate_cons, FindStandardsControl.fn, controlEntries,
              FindStandardsControl.scan, hscan]

theorem paginate_control_stop (target : String) (err : Option UpstreamError)
    (pre post : List (Option DescribeStandardsControlsOutput))
    (pg : DescribeStandardsControlsOutput) (c : StandardsControl)
    (hpre : ∀ p ∈ pre, FindStandardsControl.scan target (pageControls p) = .done none)
    (hpg : FindStandardsControl.scan target pg.Controls = .done (some c))
    (s : Option StandardsControl) (n : Nat) :
    paginate err (FindStandardsControl.fn target) (pre ++ some pg :: post) s n =
      .done ⟨some c, none, n + pre.length + 1⟩ := by
  rw [paginate_skip]
  · simp [paginate_cons, FindStandardsControl.fn, hpg]
  · intro p hp
    have := hpre p hp
    cases p with
    | none => simp [FindStandardsControl.fn]
    | some q => simp [FindStandardsControl.fn, pageControls] at this ⊢; simp [this]

theorem FindStandardsControl_of_no_error (conn : SecurityHub) (sub target : String)
    (herr : (conn.DescribeStandardsControls { StandardsSubscriptionArn := some sub }).err = none) :
    FindStandardsControlByStandardsSubscriptionARNAndStandardsControlARN conn sub target =
      match FindStandardsControl.scan target
          (controlEntries (conn.DescribeStandardsControls
            { StandardsSubscriptionArn := some sub }).pages) with
      | .nilDeref => .nilDeref
      | .done (some c) => .done (some c, none)
      | .done none => .done (none, some (tfresource.NewEmptyResultError
          { StandardsSubscriptionArn := some sub })) := by
  have h := paginate_control target none
    (conn.DescribeStandardsControls { StandardsSubscriptionArn := some sub }).pages none 0
  simp only [FindStandardsControlByStandardsSubscriptionARNAndStandardsControlARN,
    SecurityHub.DescribeStandardsControlsPagesWithContext, Listing.PagesWithContext, herr]
  cases hscan : FindStandardsControl.scan target
      (controlEntries (conn.DescribeStandardsControls
        { StandardsSubscriptionArn := some sub }).pages) with
  | nilDeref =>
    rw [hscan] at h
    simp [h]
  | done r =>
    rw [hscan] at h
    cases r with
    | some c =>
      obtain ⟨k, hk⟩ := h
      simp [hk, tfawserr.ErrCodeEquals]
    | none =>
      obtain ⟨k, hk⟩ := h
      simp [hk, tfawserr.ErrCodeEquals]

/-! ## Claims on the singular reduction and on absence -/

theorem FindStandardsSubscription_of_no_error (conn : SecurityHub)
    (input : GetEnabledStandardsInput) (herr : (conn.GetEnabledStandards input).err = none) :
    FindStandardsSubscription conn input =
      match (subscriptionEntries (conn.GetEnabledStandards input).pages).filter Option.isSome with
      | [] => .done (none, some (tfresource.NewEmptyResultError input))
      | [x] => .done (x, none)
      | _ :: _ :: rest =>
        .done (none, some (tfresource.NewTooManyResultsError (rest.length + 2) input)) := by
  have hsome : ∀ y ∈ (subscriptionEntries (conn.GetEnabledStandards input).pages).filter
      Option.isSome, y.isSome = true := fun y hy => (List.mem_filter.mp hy).2
  simp only [FindStandardsSubscription, FindStandardsSubscriptions_of_no_error conn input herr]
  generalize (subscriptionEntries (conn.GetEnabledStandards input).pages).filter
    Option.isSome = L at hsome
  match L, hsome with
  | [], _ => simp
  | [x], hx =>
    have := hx x (List.mem_cons_self _ _)
    cases x with
    | none => simp at this
    | some v => simp
  | x :: y :: rest, hx =>
    have := hx x (List.mem_cons_self _ _)
    cases x with
    | none => simp at this
    | some v => simp

/-- C1 on a listing with one nil page and one nil entry: the list is the sole
non-nil entry and the reduction returns it. -/
theorem C1_witness :
    FindStandardsSubscriptions
        (subscriptionClient ⟨[some ⟨[none, some subscriptionReady]⟩, none], none⟩) ⟨[]⟩ =
      .done ([some subscriptionReady], none) ∧
    FindStandardsSubscription
        (subscriptionClient ⟨[some ⟨[none, some subscriptionReady]⟩, none], none⟩) ⟨[]⟩ =
      .done (some subscriptionReady, none) :=
  ⟨by decide,
    ((C1_FindStandardsSubscription_exactly_one
      (subscriptionClient ⟨[some ⟨[none, some subscriptionReady]⟩, none], none⟩) ⟨[]⟩
      [some subscriptionReady] (by decide)).2.2 (some subscriptionReady) rfl).2⟩

/-- C2: on an error-free listing that returns more than one non-nil subscription
entry over all its pages, `FindStandardsSubscription` returns a too-many-results
error whose count is the total number of non-nil entries over all pages. -/
theorem C2_too_many_results_count (conn : SecurityHub) (input : GetEnabledStandardsInput)
    (herr : (conn.GetEnabledStandards input).err = none)
    (hmany : 1 < List.countP Option.isSome
      (subscriptionEntries (conn.GetEnabledStandards input).pages)) :
    FindStandardsSubscription conn input =
      .done (none, some (tfresource.NewTooManyResultsError
        (List.countP Option.isSome (subscriptionEntries (conn.GetEnabledStandards input).pages))
        input)) := by
  rw [FindStandardsSubscription_of_no_error conn input herr]
  rw [List.countP_eq_length_filter] at hmany ⊢
  generalize (subscriptionEntries (conn.GetEnabledStandards input).pages).filter
    Option.isSome = L at hmany
  match L, hmany with
  | [], h => simp at h
  | [x], h => simp at h
  | _ :: _ :: rest, _ => simp

/-- C2 on a three-page listing with two non-nil entries on different pages: the
count of the error is 2. -/
theorem C2_witness :
    1 < List.countP Option.isSome (subscriptionEntries
      [some ⟨[some subscriptionReady, none]⟩, none, some ⟨[some subscriptionFailed]⟩]) ∧
    FindStandardsSubscription
        (subscriptionClient
          ⟨[some ⟨[some subscriptionReady, none]⟩, none, some ⟨[some subscriptionFailed]⟩], none⟩)
        ⟨[]⟩ =
      .done (none, some (.tooManyResults 2 ⟨[]⟩)) :=
  ⟨by decide,
    C2_too_many_results_count
      (subscriptionClient
        ⟨[some ⟨[some subscriptionReady, none]⟩, none, some ⟨[some subscriptionFailed]⟩], none⟩)
      ⟨[]⟩ rfl (by decide)⟩

/-- C3, counterexample: with the empty string as target, the error-free listing
below holds a single record, which has no `AccountId`. No non-nil entry has an
`AccountId` equal to the target, yet `FindAdminAccount` does not return a nil
record: `aws.StringValue` reads the absent `AccountId` as the empty string, so
the record is returned. -/
theorem C3_absent_account_id_counterexample :
    ((adminClient ⟨[some ⟨[some accountNoId]⟩], none⟩).ListOrganizationAdminAccounts
      { MaxResults := none }).err = none ∧
    (∀ a, some a ∈ adminEntries
        ((adminClient ⟨[some ⟨[some accountNoId]⟩], none⟩).ListOrganizationAdminAccounts
          { MaxResults := none }).pages →
      a.AccountId ≠ some "") ∧
    FindAdminAccount (adminClient ⟨[some ⟨[some accountNoId]⟩], none⟩) "" =
      .done (some accountNoId, none) ∧
    FindAdminAccount (adminClient ⟨[some ⟨[some accountNoId]⟩], none⟩) "" ≠
      .done (none, none) := by
  refine ⟨rfl, ?_, by decide, by decide⟩
  intro a ha
  have : a = accountNoId := by
    simpa [adminClient, clientServing, adminEntries] using ha
  subst this
  decide

/-- C3 (amended): on an error-free listing of admin-account pages in which no
non-nil entry has an `AccountId` that, an absent one read as the empty string
(the comparison of the finder, `aws.StringValue(AccountId) == adminAccountID`),
equals the target, `FindAdminAccount` returns a nil record and a nil error. The
listing may have no page at all and may contain nil pages and nil entries. -/
theorem C3_FindAdminAccount_no_match (conn : SecurityHub) (adminAccountID : String)
    (herr : (conn.ListOrganizationAdminAccounts { MaxResults := none }).err = none)
    (hno : ∀ a, some a ∈ adminEntries
        (conn.ListOrganizationAdminAccounts { MaxResults := none }).pages →
      aws.StringValue a.AccountId ≠ adminAccountID) :
    FindAdminAccount conn adminAccountID = .done (none, none) := by
  rw [FindAdminAccount_of_no_error conn adminAccountID herr,
    (scan_admin_eq_none_iff adminAccountID _).mpr hno]

/-- C3 (amended) on a listing with a nil page, a nil entry and another account,
and on the listing without pages. -/
theorem C3_witness :
    FindAdminAccount (adminClient ⟨[none, some ⟨[none, some accountA]⟩, some ⟨[]⟩], none⟩)
        "222222222222" = .done (none, none) ∧
    FindAdminAccount (adminClient ⟨[], none⟩) "222222222222" = .done (none, none) :=
  ⟨C3_FindAdminAccount_no_match
      (adminClient ⟨[none, some ⟨[none, some accountA]⟩, some ⟨[]⟩], none⟩) "222222222222" rfl
      (by
        intro a ha
        have : a = accountA := by
          simpa [adminClient, clientServing, adminEntries] using ha
        subst this
        decide),
    C3_FindAdminAccount_no_match (adminClient ⟨[], none⟩) "222222222222" rfl
      (by
        intro a ha
        simp [adminClient, clientServing, adminEntries] at ha)⟩

/-! ## Standards controls: absence, and the missing nil check -/

theorem FindStandardsControl_no_match (conn : SecurityHub)
    (standardsSubscriptionARN standardsControlARN : String) (entries : List StandardsControl)
    (herr : (conn.DescribeStandardsControls
      { StandardsSubscriptionArn := some standardsSubscriptionARN }).err = none)
    (hentries : controlEntries (conn.DescribeStandardsControls
      { StandardsSubscriptionArn := some standardsSubscriptionARN }).pages = entries.map some)
    (hno : ∀ c ∈ entries, aws.StringValue c.StandardsControlArn ≠ standardsControlARN) :
    FindStandardsControlByStandardsSubscriptionARNAndStandardsControlARN conn
        standardsSubscriptionARN standardsControlARN =
      .done (none, some (tfresource.NewEmptyResultError
        { StandardsSubscriptionArn := some standardsSubscriptionARN })) := by
  rw [FindStandardsControl_of_no_error conn _ _ herr, hentries,
    scan_control_no_match standardsControlARN entries hno]

/-- C4: the code misses the claim on a listing with a nil control entry. The
listing below is error-free and none of its controls has the target ARN, yet
the finder does not return the empty-result error: its page callback, which
unlike those of the two other paginating finders has no nil check, reads
`control.StandardsControlArn` on the nil entry and panics. -/
theorem C4_nil_control_entry_panics :
    (controlClient ⟨[some ⟨[some controlA, none]⟩], none⟩).DescribeStandardsControls
        { StandardsSubscriptionArn := some "arn:subscription/cis" } =
      ⟨[some ⟨[some controlA, none]⟩], none⟩ ∧
    aws.StringValue controlA.StandardsControlArn ≠ "arn:control/b" ∧
    FindStandardsControlByStandardsSubscriptionARNAndStandardsControlARN
        (controlClient ⟨[some ⟨[some controlA, none]⟩], none⟩)
        "arn:subscription/cis" "arn:control/b" = .nilDeref ∧
    FindStandardsControlByStandardsSubscriptionARNAndStandardsControlARN
        (controlClient ⟨[some ⟨[some controlA, none]⟩], none⟩)
        "arn:subscription/cis" "arn:control/b" ≠
      .done (none, some (tfresource.NewEmptyResultError
        { StandardsSubscriptionArn := some "arn:subscription/cis" })) := by
  refine ⟨rfl, by decide, by decide, by decide⟩

/-- The empty-result error on a listing without nil entries and without
match. -/
theorem FindStandardsControl_no_match_witness :
    FindStandardsControlByStandardsSubscriptionARNAndStandardsControlARN
        (controlClient ⟨[none, some ⟨[some controlA]⟩, some ⟨[]⟩], none⟩)
        "arn:subscription/cis" "arn:control/b" =
      .done (none, some (.emptyResult { StandardsSubscriptionArn := some "arn:subscription/cis" })) :=
  FindStandardsControl_no_match _ _ _ [controlA] rfl rfl (by decide)

/-! ## A single matching entry -/

theorem filter_isSome_eq_map_some {α : Type} (xs : List (Option α)) :
    xs.filter Option.isSome = (xs.filterMap id).map some := by
  induction xs with
  | nil => rfl
  | cons x xs ih => cases x <;> simp [ih]

theorem scan_control_unique (target : String) :
    ∀ (xs : List (Option StandardsControl)) (c : StandardsControl),
      (xs.filterMap id).filter (fun x => aws.StringValue x.StandardsControlArn == target) = [c] →
      (∀ pre post, xs = pre ++ some c :: post → none ∉ pre) →
      FindStandardsControl.scan target xs = .done (some c) := by
  intro xs
  induction xs with
  | nil => intro c h; simp at h
  | cons x xs ih =>
    intro c h hnil
    cases x with
    | none =>
      exfalso
      have hc : c ∈ (xs.filterMap id).filter
          (fun x => aws.StringValue x.StandardsControlArn == target) := by
        have h1 : (xs.filterMap id).filter
            (fun x => aws.StringValue x.StandardsControlArn == target) = [c] := h
        rw [h1]; exact List.mem_singleton_self c
      have hmem : some c ∈ xs := by
        have := (List.mem_filter.mp hc).1
        simpa using this
      obtain ⟨pre, post, hsplit⟩ := List.append_of_mem hmem
      exact hnil (none :: pre) post (by rw [hsplit]; rfl) (List.mem_cons_self _ _)
    | some v =>
      by_cases hm : aws.StringValue v.StandardsControlArn = target
      · have hv : v = c := by
          simp [hm] at h
          exact h.1
        subst hv
        simp [FindStandardsControl.scan, hm]
      · have hrest : (xs.filterMap id).filter
            (fun x => aws.StringValue x.StandardsControlArn == target) = [c] := by
          simpa [hm] using h
        have := ih c hrest (fun pre post hsplit hmem =>
          hnil (some v :: pre) post (by rw [hsplit]; rfl) (List.mem_cons_of_mem _ hmem))
        simpa [FindStandardsControl.scan, hm] using this

theorem failed_status_iff (s : StandardsSubscription) :
    (aws.StringValue s.StandardsStatus == StandardsStatusFailed) = true ↔
      s.StandardsStatus = some StandardsStatusFailed := by
  cases hs : s.StandardsStatus with
  | none => simp [aws.StringValue, StandardsStatusFailed]
  | some v => simp [aws.StringValue]

theorem FindStandardsSubscriptionByARN_of_success (conn : SecurityHub) (arn : String)
    (s : StandardsSubscription)
    (h : FindStandardsSubscription conn { StandardsSubscriptionArns := aws.StringSlice [arn] } =
      .done (some s, none)) :
    FindStandardsSubscriptionByARN conn arn =
      if s.StandardsStatus = some StandardsStatusFailed then
        .done (none, some (.notFound
          { LastError := none
            LastRequest := { StandardsSubscriptionArns := aws.StringSlice [arn] }
            Message := StandardsStatusFailed }))
      else .done (some s, none) := by
  simp only [FindStandardsSubscriptionByARN, h]
  by_cases hs : s.StandardsStatus = some StandardsStatusFailed
  · simp [hs, aws.StringValue]
  · have := (failed_status_iff s).not.mpr hs
    simp only [Bool.not_eq_true] at this
    simp [hs, this]

/-- C5, counterexample: the listing served for the single-ARN request is
error-free and holds exactly one entry, yet `FindStandardsSubscriptionByARN`
does not return that entry: its status is the Failed sentinel, so the finder
returns a nil record and a not-found error. -/
theorem C5_failed_status_counterexample :
    (subscriptionClient ⟨[some ⟨[some subscriptionFailed]⟩], none⟩).GetEnabledStandards
        { StandardsSubscriptionArns := aws.StringSlice ["arn:subscription/pci"] } =
      ⟨[some ⟨[some subscriptionFailed]⟩], none⟩ ∧
    subscriptionFailed.StandardsSubscriptionArn = some "arn:subscription/pci" ∧
    FindStandardsSubscriptionByARN
        (subscriptionClient ⟨[some ⟨[some subscriptionFailed]⟩], none⟩) "arn:subscription/pci" =
      .done (none, some (.notFound
        { LastError := none
          LastRequest := { StandardsSubscriptionArns := [some "arn:subscription/pci"] }
          Message := "FAILED" })) ∧
    FindStandardsSubscriptionByARN
        (subscriptionClient ⟨[some ⟨[some subscriptionFailed]⟩], none⟩) "arn:subscription/pci" ≠
      .done (some subscriptionFailed, none) := by
  refine ⟨rfl, rfl, by decide, by decide⟩

/-- C5 (amended): on an error-free listing in which exactly one entry matches
the target key, `FindAdminAccount`, `FindStandardsSubscription` and (for a
one-element result) `FindInsight` return that entry and a nil error;
`FindStandardsSubscriptionByARN` does so when the status of the entry is not the
Failed sentinel; the standards-control finder does so when no nil control entry
precedes the matching one. An entry matches when the finder's comparison holds:
`aws.StringValue` of its key field equals the target; for the subscription
finders, whose request carries the filter, every non-nil entry matches. -/
theorem C5_single_match_returned (conn : SecurityHub) :
    (∀ (adminAccountID : String) (a : AdminAccount),
      (conn.ListOrganizationAdminAccounts { MaxResults := none }).err = none →
      ((adminEntries (conn.ListOrganizationAdminAccounts { MaxResults := none }).pages).filterMap
        id).filter (fun x => aws.StringValue x.AccountId == adminAccountID) = [a] →
      FindAdminAccount conn adminAccountID = .done (some a, none)) ∧
    (∀ (standardsSubscriptionARN standardsControlARN : String) (c : StandardsControl),
      (conn.DescribeStandardsControls
        { StandardsSubscriptionArn := some standardsSubscriptionARN }).err = none →
      ((controlEntries (conn.DescribeStandardsControls
        { StandardsSubscriptionArn := some standardsSubscriptionARN }).pages).filterMap
        id).filter (fun x => aws.StringValue x.StandardsControlArn == standardsControlARN) = [c] →
      (∀ pre post, controlEntries (conn.DescribeStandardsControls
          { StandardsSubscriptionArn := some standardsSubscriptionARN }).pages =
        pre ++ some c :: post → none ∉ pre) →
      FindStandardsControlByStandardsSubscriptionARNAndStandardsControlARN conn
        standardsSubscriptionARN standardsControlARN = .done (some c, none)) ∧
    (∀ (input : GetEnabledStandardsInput) (s : StandardsSubscription),
      (conn.GetEnabledStandards input).err = none →
      (subscriptionEntries (conn.GetEnabledStandards input).pages).filterMap id = [s] →
      FindStandardsSubscription conn input = .done (some s, none)) ∧
    (∀ (arn : String) (s : StandardsSubscription),
      (conn.GetEnabledStandards { StandardsSubscriptionArns := aws.StringSlice [arn] }).err = none →
      (subscriptionEntries (conn.GetEnabledStandards
        { StandardsSubscriptionArns := aws.StringSlice [arn] }).pages).filterMap id = [s] →
      s.StandardsStatus ≠ some StandardsStatusFailed →
      FindStandardsSubscriptionByARN conn arn = .done (some s, none)) ∧
    (∀ (arn : String) (x : Option Insight),
      conn.GetInsights { InsightArns := aws.StringSlice [arn], MaxResults := some 1 } =
        (some ⟨[x]⟩, none) →
      FindInsight conn arn = .done (x, none)) := by
  have hsub : ∀ (input : GetEnabledStandardsInput) (s : StandardsSubscription),
      (conn.GetEnabledStandards input).err = none →
      (subscriptionEntries (conn.GetEnabledStandards input).pages).filterMap id = [s] →
      FindStandardsSubscription conn input = .done (some s, none) := by
    intro input s herr hone
    rw [FindStandardsSubscription_of_no_error conn input herr, filter_isSome_eq_map_some, hone]
    rfl
  refine ⟨?_, ?_, hsub, ?_, ?_⟩
  · intro acct a herr hone
    rw [FindAdminAccount_of_no_error conn acct herr, scan_admin_eq_head_filter, hone]
    rfl
  · intro sub target c herr hone hnil
    rw [FindStandardsControl_of_no_error conn sub target herr,
      scan_control_unique target _ c hone hnil]
  · intro arn s herr hone hstatus
    rw [FindStandardsSubscriptionByARN_of_success conn arn s (hsub _ s herr hone), if_neg hstatus]
  · intro arn x hget
    simp [FindInsight, SecurityHub.GetInsightsWithContext, hget]

/-- C5 (amended) on one concrete listing for each of the five finders. -/
theorem C5_witness :
    FindAdminAccount (adminClient ⟨[some ⟨[none, some accountA]⟩, some ⟨[some accountB]⟩], none⟩)
        "222222222222" = .done (some accountB, none) ∧
    FindStandardsControlByStandardsSubscriptionARNAndStandardsControlARN
        (controlClient ⟨[some ⟨[some controlA]⟩, some ⟨[some controlB, none]⟩], none⟩)
        "arn:subscription/cis" "arn:control/b" = .done (some controlB, none) ∧
    FindStandardsSubscription
        (subscriptionClient ⟨[none, some ⟨[none, some subscriptionFailed]⟩], none⟩) ⟨[]⟩ =
      .done (some subscriptionFailed, none) ∧
    FindStandardsSubscriptionByARN
        (subscriptionClient ⟨[none, some ⟨[none, some subscriptionReady]⟩], none⟩)
        "arn:subscription/cis" = .done (some subscriptionReady, none) ∧
    FindInsight (clientServing ⟨[], none⟩ (some ⟨[some insightA]⟩, none) ⟨[], none⟩ ⟨[], none⟩)
        "arn:insight/a" = .done (some insightA, none) :=
  ⟨(C5_single_match_returned
      (adminClient ⟨[some ⟨[none, some accountA]⟩, some ⟨[some accountB]⟩], none⟩)).1
      "222222222222" accountB rfl (by decide),
    (C5_single_match_returned
      (controlClient ⟨[some ⟨[some controlA]⟩, some ⟨[some controlB, none]⟩], none⟩)).2.1
      "arn:subscription/cis" "arn:control/b" controlB rfl (by decide)
      (by
        intro pre post h hmem
        have h1 : [some controlA, some controlB, none] = pre ++ some controlB :: post := h
        rcases pre with _ | ⟨p, _ | ⟨q, pre⟩⟩
        · simp [controlA, controlB] at h1
        · simp only [List.singleton_append, List.cons.injEq] at h1
          rw [← h1.1] at hmem
          simp at hmem
        · simp only [List.cons_append, List.cons.injEq] at h1
          have h2 := h1.2.2
          rcases pre with _ | ⟨r, pre⟩
          · simp at h2
          · simp at h2),
    (C5_single_match_returned
      (subscriptionClient ⟨[none, some ⟨[none, some subscriptionFailed]⟩], none⟩)).2.2.1
      ⟨[]⟩ subscriptionFailed rfl (by decide),
    (C5_single_match_returned
      (subscriptionClient ⟨[none, some ⟨[none, some subscriptionReady]⟩], none⟩)).2.2.2.1
      "arn:subscription/cis" subscriptionReady rfl (by decide) (by decide),
    (C5_single_match_returned
      (clientServing ⟨[], none⟩ (some ⟨[some insightA]⟩, none) ⟨[], none⟩ ⟨[], none⟩)).2.2.2.2
      "arn:insight/a" (some insightA) rfl⟩

/-! ## Status gating and error classification -/

/-- C6: status gating. Whenever `FindStandardsSubscription` succeeds on the
single-ARN filter request with a record whose `StandardsStatus` is the sentinel
`securityhub.StandardsStatusFailed`, `FindStandardsSubscriptionByARN` returns a
nil record and a not-found error whose `Message` is that status string, whose
`LastRequest` is the single-ARN filter request and whose `LastError` is nil. -/
theorem C6_status_gating (conn : SecurityHub) (arn : String) (s : StandardsSubscription)
    (h : FindStandardsSubscription conn { StandardsSubscriptionArns := aws.StringSlice [arn] } =
      .done (some s, none))
    (hs : s.StandardsStatus = some StandardsStatusFailed) :
    FindStandardsSubscriptionByARN conn arn =
      .done (none, some (.notFound
        { LastError := none
          LastRequest := { StandardsSubscriptionArns := aws.StringSlice [arn] }
          Message := StandardsStatusFailed })) := by
  rw [FindStandardsSubscriptionByARN_of_success conn arn s h, if_pos hs]

/-- C6 on a listing whose sole entry has the status `FAILED`. -/
theorem C6_witness :
    FindStandardsSubscription
        (subscriptionClient ⟨[some ⟨[some subscriptionFailed]⟩], none⟩)
        { StandardsSubscriptionArns := aws.StringSlice ["arn:subscription/pci"] } =
      .done (some subscriptionFailed, none) ∧
    subscriptionFailed.StandardsStatus = some StandardsStatusFailed ∧
    FindStandardsSubscriptionByARN
        (subscriptionClient ⟨[some ⟨[some subscriptionFailed]⟩], none⟩) "arn:subscription/pci" =
      .done (none, some (.notFound
        { LastError := none
          LastRequest := { StandardsSubscriptionArns := [some "arn:subscription/pci"] }
          Message := "FAILED" })) :=
  ⟨by decide, rfl,
    C6_status_gating (subscriptionClient ⟨[some ⟨[some subscriptionFailed]⟩], none⟩)
      "arn:subscription/pci" subscriptionFailed (by decide) rfl⟩

theorem FindStandardsControl_of_paged (conn : SecurityHub) (sub target : String)
    (r : Paged (Option StandardsControl))
    (h : conn.DescribeStandardsControlsPagesWithContext { StandardsSubscriptionArn := some sub }
      (FindStandardsControl.fn target) none = .done r) :
    FindStandardsControlByStandardsSubscriptionARNAndStandardsControlARN conn sub target =
      if tfawserr.ErrCodeEquals r.err ErrCodeResourceNotFoundException then
        .done (none, some (.notFound
          { LastError := r.err, LastRequest := { StandardsSubscriptionArn := some sub },
            Message := "" }))
      else
        match r.err with
        | some err => .done (none, some (.upstream err))
        | none =>
          match r.state with
          | none => .done (none, some (tfresource.NewEmptyResultError
              { StandardsSubscriptionArn := some sub }))
          | some output => .done (some output, none) := by
  simp only [FindStandardsControlByStandardsSubscriptionARNAndStandardsControlARN, h]

theorem invalid_access_ne_not_found :
    (ErrCodeInvalidAccessException == ErrCodeResourceNotFoundException) = false := by
  decide

/-- C7: whenever the upstream paginated call fails with an error whose code is
the resource-not-found code, the standards-control finder and
`FindStandardsSubscriptions` return a nil result and a not-found error whose
`LastError` is that upstream error and whose `LastRequest` is the request that
was sent. For the subscription listing this holds whatever the pages served
before the failure contain. -/
theorem C7_resource_not_found_translated (conn : SecurityHub) (message : String) :
    (∀ (standardsSubscriptionARN standardsControlARN : String)
        (r : Paged (Option StandardsControl)),
      conn.DescribeStandardsControlsPagesWithContext
        { StandardsSubscriptionArn := some standardsSubscriptionARN }
        (FindStandardsControl.fn standardsControlARN) none = .done r →
      r.err = some (.awsErr ErrCodeResourceNotFoundException message) →
      FindStandardsControlByStandardsSubscriptionARNAndStandardsControlARN conn
          standardsSubscriptionARN standardsControlARN =
        .done (none, some (.notFound
          { LastError := some (.awsErr ErrCodeResourceNotFoundException message)
            LastRequest := { StandardsSubscriptionArn := some standardsSubscriptionARN }
            Message := "" }))) ∧
    (∀ (input : GetEnabledStandardsInput),
      (conn.GetEnabledStandards input).err =
        some (.awsErr ErrCodeResourceNotFoundException message) →
      FindStandardsSubscriptions conn input =
        .done ([], some (.notFound
          { LastError := some (.awsErr ErrCodeResourceNotFoundException message)
            LastRequest := input
            Message := "" }))) := by
  constructor
  · intro sub target r hcall herr
    rw [FindStandardsControl_of_paged conn sub target r hcall, herr]
    simp [tfawserr.ErrCodeEquals]
  · intro input herr
    rw [FindStandardsSubscriptions_eq, herr]
    simp [tfawserr.ErrCodeEquals]

/-- C7 on listings that serve entries before the request for the next page fails
with the resource-not-found code. -/
theorem C7_witness :
    FindStandardsControlByStandardsSubscriptionARNAndStandardsControlARN
        (controlClient ⟨[some ⟨[some controlA]⟩, none], some errResourceNotFound⟩)
        "arn:subscription/cis" "arn:control/b" =
      .done (none, some (.notFound
        { LastError := some errResourceNotFound
          LastRequest := { StandardsSubscriptionArn := some "arn:subscription/cis" }
          Message := "" })) ∧
    FindStandardsSubscriptions
        (subscriptionClient ⟨[some ⟨[some subscriptionReady]⟩], some errResourceNotFound⟩)
        ⟨[some "arn:subscription/cis"]⟩ =
      .done ([], some (.notFound
        { LastError := some errResourceNotFound
          LastRequest := ⟨[some "arn:subscription/cis"]⟩
          Message := "" })) :=
  ⟨(C7_resource_not_found_translated
      (controlClient ⟨[some ⟨[some controlA]⟩, none], some errResourceNotFound⟩)
      "subscription does not exist").1 "arn:subscription/cis" "arn:control/b"
      ⟨none, some errResourceNotFound, 3⟩ (by decide) rfl,
    (C7_resource_not_found_translated
      (subscriptionClient ⟨[some ⟨[some subscriptionReady]⟩], some errResourceNotFound⟩)
      "subscription does not exist").2 ⟨[some "arn:subscription/cis"]⟩ rfl⟩

/-- C8: for an upstream error with the invalid-access code whose message
contains "not subscribed to AWS Security Hub", `FindStandardsSubscriptions`
returns a not-found error wrapping it (`LastError` the upstream error,
`LastRequest` the request), whereas the standards-control finder returns that
same upstream error unchanged, which is no not-found error; and an
invalid-access error whose message lacks that text is returned unchanged by
`FindStandardsSubscriptions`. -/
theorem C8_invalid_access_classification (conn : SecurityHub) (message : String) :
    (strings.Contains message "not subscribed to AWS Security Hub" = true →
      (∀ (input : GetEnabledStandardsInput),
        (conn.GetEnabledStandards input).err =
          some (.awsErr ErrCodeInvalidAccessException message) →
        FindStandardsSubscriptions conn input =
          .done ([], some (.notFound
            { LastError := some (.awsErr ErrCodeInvalidAccessException message)
              LastRequest := input
              Message := "" }))) ∧
      (∀ (standardsSubscriptionARN standardsControlARN : String)
          (r : Paged (Option StandardsControl)),
        conn.DescribeStandardsControlsPagesWithContext
          { StandardsSubscriptionArn := some standardsSubscriptionARN }
          (FindStandardsControl.fn standardsControlARN) none = .done r →
        r.err = some (.awsErr ErrCodeInvalidAccessException message) →
        FindStandardsControlByStandardsSubscriptionARNAndStandardsControlARN conn
            standardsSubscriptionARN standardsControlARN =
          .done (none, some (.upstream (.awsErr ErrCodeInvalidAccessException message))) ∧
        ∀ nf, Error.upstream (.awsErr ErrCodeInvalidAccessException message) ≠
          (Error.notFound nf : Error DescribeStandardsControlsInput))) ∧
    (strings.Contains message "not subscribed to AWS Security Hub" = false →
      ∀ (input : GetEnabledStandardsInput),
        (conn.GetEnabledStandards input).err =
          some (.awsErr ErrCodeInvalidAccessException message) →
        FindStandardsSubscriptions conn input =
          .done ([], some (.upstream (.awsErr ErrCodeInvalidAccessException message)))) := by
  refine ⟨fun hsub => ⟨?_, ?_⟩, ?_⟩
  · intro input herr
    rw [FindStandardsSubscriptions_eq, herr]
    simp [tfawserr.ErrCodeEquals, tfawserr.ErrMessageContains, invalid_access_ne_not_found, hsub]
  · intro sub target r hcall herr
    refine ⟨?_, fun nf h => by cases h⟩
    rw [FindStandardsControl_of_paged conn sub target r hcall, herr]
    simp [tfawserr.ErrCodeEquals, invalid_access_ne_not_found]
  · intro hsub input herr
    rw [FindStandardsSubscriptions_eq, herr]
    simp [tfawserr.ErrCodeEquals, tfawserr.ErrMessageContains, invalid_access_ne_not_found, hsub]

/-- C8 on listings that fail with the invalid-access code, once with and once
without the "not subscribed" text. -/
theorem C8_witness :
    FindStandardsSubscriptions
        (subscriptionClient ⟨[some ⟨[some subscriptionReady]⟩], some errNotSubscribed⟩) ⟨[]⟩ =
      .done ([], some (.notFound
        { LastError := some errNotSubscribed, LastRequest := ⟨[]⟩, Message := "" })) ∧
    FindStandardsControlByStandardsSubscriptionARNAndStandardsControlARN
        (controlClient ⟨[some ⟨[some controlA]⟩], some errNotSubscribed⟩)
        "arn:subscription/cis" "arn:control/b" =
      .done (none, some (.upstream errNotSubscribed)) ∧
    FindStandardsSubscriptions
        (subscriptionClient ⟨[some ⟨[some subscriptionReady]⟩], some errInvalidAccess⟩) ⟨[]⟩ =
      .done ([], some (.upstream errInvalidAccess)) :=
  ⟨((C8_invalid_access_classification
      (subscriptionClient ⟨[some ⟨[some subscriptionReady]⟩], some errNotSubscribed⟩)
      "Account 111111111111 is not subscribed to AWS Security Hub").1 (by decide)).1 ⟨[]⟩ rfl,
    (((C8_invalid_access_classification
      (controlClient ⟨[some ⟨[some controlA]⟩], some errNotSubscribed⟩)
      "Account 111111111111 is not subscribed to AWS Security Hub").1 (by decide)).2
      "arn:subscription/cis" "arn:control/b" ⟨none, some errNotSubscribed, 2⟩ (by decide) rfl).1,
    (C8_invalid_access_classification
      (subscriptionClient ⟨[some ⟨[some subscriptionReady]⟩], some errInvalidAccess⟩)
      "caller is not the administrator account").2 (by decide) ⟨[]⟩ rfl⟩

/-! ## Errors that match no classification rule -/

theorem paginate_admin_err (acct : String) (err : Option UpstreamError)
    (pages : List (Option ListOrganizationAdminAccountsOutput)) (n : Nat)
    (r : Paged (Option AdminAccount)) (e : UpstreamError)
    (h : paginate err (FindAdminAccount.fn acct) pages none n = .done r)
    (he : r.err = some e) : r.state = none := by
  obtain ⟨k, hk⟩ := paginate_admin acct err pages none n
  rw [hk] at h
  injection h with h
  subst h
  cases hscan : FindAdminAccount.scan acct (adminEntries pages) with
  | none => simp [hscan]
  | some a => simp [hscan] at he

/-- C10: an upstream error that matches no classification rule of the finder
that receives it is returned as it is, neither changed nor wrapped: any error
of the paginated call for `FindAdminAccount`, any error of the get-insights
call for `FindInsight`, any error without the resource-not-found code for the
standards-control finder, and any error that is neither resource-not-found nor
invalid-access with the "not subscribed" text for `FindStandardsSubscriptions`. -/
theorem C10_unclassified_error_returned_unchanged (conn : SecurityHub) (e : UpstreamError) :
    (∀ (adminAccountID : String) (r : Paged (Option AdminAccount)),
      conn.ListOrganizationAdminAccountsPagesWithContext { MaxResults := none }
        (FindAdminAccount.fn adminAccountID) none = .done r →
      r.err = some e →
      FindAdminAccount conn adminAccountID = .done (none, some (.upstream e))) ∧
    (∀ (arn : String) (output : Option GetInsightsOutput),
      conn.GetInsights { InsightArns := aws.StringSlice [arn], MaxResults := some 1 } =
        (output, some e) →
      FindInsight conn arn = .done (none, some (.upstream e))) ∧
    (tfawserr.ErrCodeEquals (some e) ErrCodeResourceNotFoundException = false →
      ∀ (standardsSubscriptionARN standardsControlARN : String)
        (r : Paged (Option StandardsControl)),
      conn.DescribeStandardsControlsPagesWithContext
        { StandardsSubscriptionArn := some standardsSubscriptionARN }
        (FindStandardsControl.fn standardsControlARN) none = .done r →
      r.err = some e →
      FindStandardsControlByStandardsSubscriptionARNAndStandardsControlARN conn
          standardsSubscriptionARN standardsControlARN =
        .done (none, some (.upstream e))) ∧
    (tfawserr.ErrCodeEquals (some e) ErrCodeResourceNotFoundException = false →
      tfawserr.ErrMessageContains (some e) ErrCodeInvalidAccessException
        "not subscribed to AWS Security Hub" = false →
      ∀ (input : GetEnabledStandardsInput),
      (conn.GetEnabledStandards input).err = some e →
      FindStandardsSubscriptions conn input = .done ([], some (.upstream e))) := by
  refine ⟨?_, ?_, ?_, ?_⟩
  · intro acct r hcall herr
    have hstate : r.state = none :=
      paginate_admin_err acct _ _ 0 r e hcall herr
    simp only [FindAdminAccount, hcall, hstate, herr, Option.map_some']
  · intro arn output hget
    simp [FindInsight, SecurityHub.GetInsightsWithContext, hget]
  · intro hcode sub target r hcall herr
    rw [FindStandardsControl_of_paged conn sub target r hcall, herr, hcode]
    simp
  · intro hcode hmsg input herr
    rw [FindStandardsSubscriptions_eq, herr, hcode, hmsg]
    simp

/-- C10 on one failing call for each of the four finders. -/
theorem C10_witness :
    FindAdminAccount (adminClient ⟨[some ⟨[some accountA]⟩], some errResourceNotFound⟩)
        "222222222222" = .done (none, some (.upstream errResourceNotFound)) ∧
    FindInsight
        (clientServing ⟨[], none⟩ (some ⟨[some insightA]⟩, some errCancelled) ⟨[], none⟩ ⟨[], none⟩)
        "arn:insight/a" = .done (none, some (.upstream errCancelled)) ∧
    FindStandardsControlByStandardsSubscriptionARNAndStandardsControlARN
        (controlClient ⟨[some ⟨[some controlA]⟩], some errCancelled⟩)
        "arn:subscription/cis" "arn:control/b" = .done (none, some (.upstream errCancelled)) ∧
    FindStandardsSubscriptions
        (subscriptionClient ⟨[some ⟨[some subscriptionReady]⟩], some errInvalidAccess⟩) ⟨[]⟩ =
      .done ([], some (.upstream errInvalidAccess)) :=
  ⟨(C10_unclassified_error_returned_unchanged
      (adminClient ⟨[some ⟨[some accountA]⟩], some errResourceNotFound⟩) errResourceNotFound).1
      "222222222222" ⟨none, some errResourceNotFound, 2⟩ (by decide) rfl,
    (C10_unclassified_error_returned_unchanged
      (clientServing ⟨[], none⟩ (some ⟨[some insightA]⟩, some errCancelled) ⟨[], none⟩ ⟨[], none⟩)
      errCancelled).2.1 "arn:insight/a" (some ⟨[some insightA]⟩) rfl,
    (C10_unclassified_error_returned_unchanged
      (controlClient ⟨[some ⟨[some controlA]⟩], some errCancelled⟩) errCancelled).2.2.1
      (by decide) "arn:subscription/cis" "arn:control/b" ⟨none, some errCancelled, 2⟩
      (by decide) rfl,
    (C10_unclassified_error_returned_unchanged
      (subscriptionClient ⟨[some ⟨[some subscriptionReady]⟩], some errInvalidAccess⟩)
      errInvalidAccess).2.2.2 (by decide) (by decide) ⟨[]⟩ rfl⟩

/-! ## Early termination -/

theorem FindAdminAccount_stops_at_matching_page (conn : SecurityHub) (adminAccountID : String)
    (pre post : List (Option ListOrganizationAdminAccountsOutput))
    (pg : ListOrganizationAdminAccountsOutput)
    (hpages : (conn.ListOrganizationAdminAccounts { MaxResults := none }).pages =
      pre ++ some pg :: post)
    (hpre : ∀ p ∈ pre, ∀ x, some x ∈ pageAdminAccounts p →
      aws.StringValue x.AccountId ≠ adminAccountID)
    (hpg : ∃ x, some x ∈ pg.AdminAccounts ∧ aws.StringValue x.AccountId = adminAccountID) :
    ∃ a, some a ∈ pg.AdminAccounts ∧
      conn.ListOrganizationAdminAccountsPagesWithContext { MaxResults := none }
        (FindAdminAccount.fn adminAccountID) none = .done ⟨some a, none, pre.length + 1⟩ := by
  have hscan : ∃ a, FindAdminAccount.scan adminAccountID pg.AdminAccounts = some a := by
    cases h : FindAdminAccount.scan adminAccountID pg.AdminAccounts with
    | some a => exact ⟨a, rfl⟩
    | none =>
      obtain ⟨x, hx, hm⟩ := hpg
      exact absurd hm ((scan_admin_eq_none_iff adminAccountID _).mp h x hx)
  obtain ⟨a, ha⟩ := hscan
  have hmem : some a ∈ pg.AdminAccounts := by
    rw [scan_admin_eq_head_filter] at ha
    have := List.mem_of_mem_head? ha
    have := (List.mem_filter.mp this).1
    simpa using this
  refine ⟨a, hmem, ?_⟩
  simp only [SecurityHub.ListOrganizationAdminAccountsPagesWithContext, Listing.PagesWithContext,
    hpages]
  rw [paginate_admin_stop adminAccountID _ pre post pg a
    (fun p hp => (scan_admin_eq_none_iff adminAccountID _).mpr (hpre p hp)) ha]
  simp

theorem FindStandardsControl_stops_at_matching_page (conn : SecurityHub)
    (standardsSubscriptionARN standardsControlARN : String)
    (pre post : List (Option DescribeStandardsControlsOutput))
    (pg : DescribeStandardsControlsOutput) (before : List StandardsControl)
    (c : StandardsControl) (after : List (Option StandardsControl))
    (hpages : (conn.DescribeStandardsControls
      { StandardsSubscriptionArn := some standardsSubscriptionARN }).pages = pre ++ some pg :: post)
    (hpre : ∀ p ∈ pre, ∃ xs : List StandardsControl, pageControls p = xs.map some ∧
      ∀ x ∈ xs, aws.StringValue x.StandardsControlArn ≠ standardsControlARN)
    (hpg : pg.Controls = before.map some ++ some c :: after)
    (hbefore : ∀ x ∈ before, aws.StringValue x.StandardsControlArn ≠ standardsControlARN)
    (hc : aws.StringValue c.StandardsControlArn = standardsControlARN) :
    conn.DescribeStandardsControlsPagesWithContext
        { StandardsSubscriptionArn := some standardsSubscriptionARN }
        (FindStandardsControl.fn standardsControlARN) none =
      .done ⟨some c, none, pre.length + 1⟩ := by
  simp only [SecurityHub.DescribeStandardsControlsPagesWithContext, Listing.PagesWithContext,
    hpages]
  rw [paginate_control_stop standardsControlARN _ pre post pg c]
  · simp
  · intro p hp
    obtain ⟨xs, hxs, hno⟩ := hpre p hp
    rw [hxs]
    exact scan_control_no_match standardsControlARN xs hno
  · rw [hpg]
    exact scan_control_first_match standardsControlARN before c after hbefore hc

theorem FindAdminAccount_three_pages_match_on_second :
    (adminClient ⟨[some ⟨[some accountA]⟩, some ⟨[none, some accountB]⟩, some ⟨[some accountB]⟩],
        none⟩).ListOrganizationAdminAccountsPagesWithContext { MaxResults := none }
        (FindAdminAccount.fn "222222222222") none = .done ⟨some accountB, none, 2⟩ := by
  decide

theorem FindStandardsControl_three_pages_match_on_second :
    (controlClient ⟨[some ⟨[some controlA]⟩, some ⟨[some controlB]⟩, some ⟨[some controlA]⟩],
        none⟩).DescribeStandardsControlsPagesWithContext
        { StandardsSubscriptionArn := some "arn:subscription/cis" }
        (FindStandardsControl.fn "arn:control/b") none = .done ⟨some controlB, none, 2⟩ :=
  FindStandardsControl_stops_at_matching_page _ "arn:subscription/cis" "arn:control/b"
    [some ⟨[some controlA]⟩] [some ⟨[some controlA]⟩] ⟨[some controlB]⟩ [] controlB [] rfl
    (by
      intro p hp
      have : p = some ⟨[some controlA]⟩ := by simpa using hp
      subst this
      exact ⟨[controlA], rfl, by decide⟩)
    rfl (by decide) (by decide)

/-- C9: the code misses the claim for the standards-control finder on a listing
with a nil control entry before the match. In the three-page listing below the first
matching entry lies on page 2, but the call never gets there: the page callback
reads `control.StandardsControlArn` on the nil entry of page 1 and panics, on the
first page alone as on the whole listing, so that the finder returns nothing. -/
theorem C9_nil_entry_before_match_panics :
    FindStandardsControl.scan "arn:control/b" [some controlB] = .done (some controlB) ∧
    (controlClient ⟨[some ⟨[some controlA, none]⟩, some ⟨[some controlB]⟩, some ⟨[some controlA]⟩],
        none⟩).DescribeStandardsControlsPagesWithContext
        { StandardsSubscriptionArn := some "arn:subscription/cis" }
        (FindStandardsControl.fn "arn:control/b") none = .nilDeref ∧
    (controlClient ⟨[some ⟨[some controlA, none]⟩], some errCancelled⟩
      ).DescribeStandardsControlsPagesWithContext
        { StandardsSubscriptionArn := some "arn:subscription/cis" }
        (FindStandardsControl.fn "arn:control/b") none = .nilDeref ∧
    FindStandardsControlByStandardsSubscriptionARNAndStandardsControlARN
        (controlClient
          ⟨[some ⟨[some controlA, none]⟩, some ⟨[some controlB]⟩, some ⟨[some controlA]⟩], none⟩)
        "arn:subscription/cis" "arn:control/b" = .nilDeref := by
  refine ⟨by decide, by decide, by decide, by decide⟩

/-! ## Insights, and the listing of standards subscriptions -/

/-- C11: when the upstream get-insights call succeeds with a nil output or with
an empty insight list, `FindInsight` returns a nil record and a nil error; when
it succeeds with a non-empty list, `FindInsight` returns the first element of
that list and a nil error. -/
theorem C11_FindInsight_results (conn : SecurityHub) (arn : String) :
    (conn.GetInsights { InsightArns := aws.StringSlice [arn], MaxResults := some 1 } =
        (none, none) →
      FindInsight conn arn = .done (none, none)) ∧
    (conn.GetInsights { InsightArns := aws.StringSlice [arn], MaxResults := some 1 } =
        (some ⟨[]⟩, none) →
      FindInsight conn arn = .done (none, none)) ∧
    (∀ (first : Option Insight) (rest : List (Option Insight)),
      conn.GetInsights { InsightArns := aws.StringSlice [arn], MaxResults := some 1 } =
        (some ⟨first :: rest⟩, none) →
      FindInsight conn arn = .done (first, none)) := by
  refine ⟨?_, ?_, ?_⟩
  · intro h
    simp [FindInsight, SecurityHub.GetInsightsWithContext, h]
  · intro h
    simp [FindInsight, SecurityHub.GetInsightsWithContext, h]
  · intro first rest h
    simp [FindInsight, SecurityHub.GetInsightsWithContext, h]

/-- C11 on the three answers: a nil output, an empty list, and a list of two
insights. -/
theorem C11_witness :
    FindInsight (clientServing ⟨[], none⟩ (none, none) ⟨[], none⟩ ⟨[], none⟩) "arn:insight/a" =
      .done (none, none) ∧
    FindInsight (clientServing ⟨[], none⟩ (some ⟨[]⟩, none) ⟨[], none⟩ ⟨[], none⟩)
        "arn:insight/a" = .done (none, none) ∧
    FindInsight
        (clientServing ⟨[], none⟩ (some ⟨[some insightA, none]⟩, none) ⟨[], none⟩ ⟨[], none⟩)
        "arn:insight/a" = .done (some insightA, none) :=
  ⟨(C11_FindInsight_results
      (clientServing ⟨[], none⟩ (none, none) ⟨[], none⟩ ⟨[], none⟩) "arn:insight/a").1 rfl,
    (C11_FindInsight_results
      (clientServing ⟨[], none⟩ (some ⟨[]⟩, none) ⟨[], none⟩ ⟨[], none⟩) "arn:insight/a").2.1 rfl,
    (C11_FindInsight_results
      (clientServing ⟨[], none⟩ (some ⟨[some insightA, none]⟩, none) ⟨[], none⟩ ⟨[], none⟩)
      "arn:insight/a").2.2 (some insightA) [none] rfl⟩

theorem subscriptionEntries_filter_eq_flatten (pages : List (Option GetEnabledStandardsOutput)) :
    (subscriptionEntries pages).filter Option.isSome =
      (pages.map (fun page => (pageSubscriptions page).filter Option.isSome)).flatten := by
  induction pages with
  | nil => rfl
  | cons p rest ih =>
    cases p with
    | none => simpa [subscriptionEntries, pageSubscriptions] using ih
    | some pg => simp [subscriptionEntries, pageSubscriptions, ih]

/-- C12: on an error-free listing of enabled-standards pages,
`FindStandardsSubscriptions` returns, with a nil error, exactly the
concatenation in page order of the non-nil entries of each page in their
in-page order, a nil page contributing nothing. The returned list contains no
nil entry, and every non-nil entry of every page is in it. -/
theorem C12_FindStandardsSubscriptions_collects_non_nil (conn : SecurityHub)
    (input : GetEnabledStandardsInput) (herr : (conn.GetEnabledStandards input).err = none) :
    FindStandardsSubscriptions conn input =
      .done (((conn.GetEnabledStandards input).pages.map
        (fun page => (pageSubscriptions page).filter Option.isSome)).flatten, none) ∧
    none ∉ ((conn.GetEnabledStandards input).pages.map
      (fun page => (pageSubscriptions page).filter Option.isSome)).flatten ∧
    (∀ page ∈ (conn.GetEnabledStandards input).pages, ∀ v, some v ∈ pageSubscriptions page →
      some v ∈ ((conn.GetEnabledStandards input).pages.map
        (fun page => (pageSubscriptions page).filter Option.isSome)).flatten) := by
  refine ⟨?_, ?_, ?_⟩
  · rw [FindStandardsSubscriptions_of_no_error conn input herr,
      subscriptionEntries_filter_eq_flatten]
  · intro hmem
    obtain ⟨l, hl, hin⟩ := List.mem_flatten.mp hmem
    obtain ⟨page, _, hpage⟩ := List.mem_map.mp hl
    rw [← hpage] at hin
    have := (List.mem_filter.mp hin).2
    simp at this
  · intro page hpage v hv
    exact List.mem_flatten.mpr
      ⟨_, List.mem_map.mpr ⟨page, hpage, rfl⟩, List.mem_filter.mpr ⟨hv, rfl⟩⟩

/-- C12 on a listing of four pages, one of them nil, with nil entries between
the records. -/
theorem C12_witness :
    FindStandardsSubscriptions
        (subscriptionClient
          ⟨[some ⟨[none, some subscriptionFailed]⟩, none, some ⟨[]⟩,
            some ⟨[some subscriptionReady, none, some subscriptionFailed]⟩], none⟩) ⟨[]⟩ =
      .done ([some subscriptionFailed, some subscriptionReady, some subscriptionFailed], none) :=
  (C12_FindStandardsSubscriptions_collects_non_nil
    (subscriptionClient
      ⟨[some ⟨[none, some subscriptionFailed]⟩, none, some ⟨[]⟩,
        some ⟨[some subscriptionReady, none, some subscriptionFailed]⟩], none⟩) ⟨[]⟩ rfl).1

/-! ## The first matching admin account -/

theorem scan_admin_some_split (acct : String) :
    ∀ (xs : List (Option AdminAccount)) (a : AdminAccount),
      FindAdminAccount.scan acct xs = some a →
      ∃ pre post, xs = pre ++ some a :: post ∧
        (∀ x, some x ∈ pre → aws.StringValue x.AccountId ≠ acct) ∧
        aws.StringValue a.AccountId = acct := by
  intro xs
  induction xs with
  | nil => intro a h; simp [FindAdminAccount.scan] at h
  | cons x xs ih =>
    intro a h
    cases x with
    | none =>
      obtain ⟨pre, post, hsplit, hpre, ha⟩ := ih a (by simpa [FindAdminAccount.scan] using h)
      refine ⟨none :: pre, post, by rw [hsplit]; rfl, ?_, ha⟩
      intro y hy
      exact hpre y (by simpa using hy)
    | some v =>
      by_cases hm : aws.StringValue v.AccountId = acct
      · have hv : v = a := by simpa [FindAdminAccount.scan, hm] using h
        subst hv
        exact ⟨[], xs, rfl, by simp, hm⟩
      · obtain ⟨pre, post, hsplit, hpre, ha⟩ :=
          ih a (by simpa [FindAdminAccount.scan, hm] using h)
        refine ⟨some v :: pre, post, by rw [hsplit]; rfl, ?_, ha⟩
        intro y hy
        rcases List.mem_cons.mp hy with hyv | hy
        · have : y = v := by simpa using hyv
          subst this
          exact hm
        · exact hpre y hy

/-- C13, counterexample: with the empty string as target, the page below holds
a record without `AccountId` followed by a record whose `AccountId` is the
empty string. The second is the first entry whose `AccountId` equals the
target, yet `FindAdminAccount` returns the first: it does not skip an entry
with an absent `AccountId`, because `aws.StringValue` reads it as the empty
string. -/
theorem C13_absent_account_id_counterexample :
    accountNoId.AccountId = none ∧
    accountEmptyId.AccountId = some "" ∧
    FindAdminAccount (adminClient ⟨[some ⟨[some accountNoId, some accountEmptyId]⟩], none⟩) "" =
      .done (some accountNoId, none) ∧
    FindAdminAccount (adminClient ⟨[some ⟨[some accountNoId, some accountEmptyId]⟩], none⟩) "" ≠
      .done (some accountEmptyId, none) := by
  refine ⟨rfl, rfl, by decide, by decide⟩

/-- C13 (amended): on an error-free listing of admin-account pages that
contains at least one non-nil entry whose `AccountId`, an absent one read as
the empty string, equals the target, `FindAdminAccount` returns with a nil
error the first such entry in page order and then in-page order: every entry
before it is nil or has an `AccountId` that, so read, differs from the target,
whatever follows it on the same page or on later pages. -/
theorem C13_FindAdminAccount_first_match (conn : SecurityHub) (adminAccountID : String)
    (herr : (conn.ListOrganizationAdminAccounts { MaxResults := none }).err = none)
    (hex : ∃ x, some x ∈ adminEntries
        (conn.ListOrganizationAdminAccounts { MaxResults := none }).pages ∧
      aws.StringValue x.AccountId = adminAccountID) :
    ∃ a, FindAdminAccount conn adminAccountID = .done (some a, none) ∧
      aws.StringValue a.AccountId = adminAccountID ∧
      ∃ pre post,
        adminEntries (conn.ListOrganizationAdminAccounts { MaxResults := none }).pages =
          pre ++ some a :: post ∧
        ∀ x, some x ∈ pre → aws.StringValue x.AccountId ≠ adminAccountID := by
  rw [FindAdminAccount_of_no_error conn adminAccountID herr]
  cases hscan : FindAdminAccount.scan adminAccountID
      (adminEntries (conn.ListOrganizationAdminAccounts { MaxResults := none }).pages) with
  | none =>
    obtain ⟨x, hx, hm⟩ := hex
    exact absurd hm ((scan_admin_eq_none_iff adminAccountID _).mp hscan x hx)
  | some a =>
    obtain ⟨pre, post, hsplit, hpre, ha⟩ := scan_admin_some_split adminAccountID _ a hscan
    exact ⟨a, rfl, ha, pre, post, hsplit, hpre⟩

/-- C13 (amended) on a listing in which the target occurs on the second page,
after a nil entry and another account, and again on the third page. -/
theorem C13_witness :
    ∃ a, FindAdminAccount
        (adminClient ⟨[some ⟨[none, some accountA]⟩, some ⟨[some accountNoId, some accountB]⟩,
          some ⟨[some accountB]⟩], none⟩) "222222222222" = .done (some a, none) ∧
      aws.StringValue a.AccountId = "222222222222" ∧
      ∃ pre post,
        adminEntries ((adminClient
          ⟨[some ⟨[none, some accountA]⟩, some ⟨[some accountNoId, some accountB]⟩,
            some ⟨[some accountB]⟩], none⟩).ListOrganizationAdminAccounts
              { MaxResults := none }).pages = pre ++ some a :: post ∧
        ∀ x, some x ∈ pre → aws.StringValue x.AccountId ≠ "222222222222" :=
  C13_FindAdminAccount_first_match
    (adminClient ⟨[some ⟨[none, some accountA]⟩, some ⟨[some accountNoId, some accountB]⟩,
      some ⟨[some accountB]⟩], none⟩) "222222222222" rfl
    ⟨accountB, by decide, by decide⟩

/-! ## Success returns a record; composed finders pass errors on -/

/-- C14: whenever the standards-control finder, `FindStandardsSubscription` or
`FindStandardsSubscriptionByARN` returns a nil error, the record it returns is
not nil. -/
theorem C14_success_has_record (conn : SecurityHub) :
    (∀ (standardsSubscriptionARN standardsControlARN : String) (rec : Option StandardsControl),
      FindStandardsControlByStandardsSubscriptionARNAndStandardsControlARN conn
        standardsSubscriptionARN standardsControlARN = .done (rec, none) → rec ≠ none) ∧
    (∀ (input : GetEnabledStandardsInput) (rec : Option StandardsSubscription),
      FindStandardsSubscription conn input = .done (rec, none) → rec ≠ none) ∧
    (∀ (arn : String) (rec : Option StandardsSubscription),
      FindStandardsSubscriptionByARN conn arn = .done (rec, none) → rec ≠ none) := by
  refine ⟨?_, ?_, ?_⟩
  · intro sub target rec h
    simp only [FindStandardsControlByStandardsSubscriptionARNAndStandardsControlARN] at h
    split at h
    · cases h
    · split at h
      · simp at h
      · split at h
        · simp at h
        · split at h
          · simp [tfresource.NewEmptyResultError] at h
          · simp only [Run.done.injEq, Prod.mk.injEq, and_true] at h
            rw [← h]
            simp
  · intro input rec h
    simp only [FindStandardsSubscription] at h
    split at h
    · cases h
    · simp at h
    · rename_i output _
      split at h
      · simp [tfresource.NewEmptyResultError] at h
      · rename_i hguard
        split at h
        · simp [tfresource.NewTooManyResultsError] at h
        · simp only [Run.done.injEq, Prod.mk.injEq, and_true] at h
          rw [← h]
          cases output with
          | nil => simp at hguard
          | cons x rest =>
            cases x with
            | none => simp at hguard
            | some v => simp
  · intro arn rec h
    simp only [FindStandardsSubscriptionByARN] at h
    split at h
    · cases h
    · simp at h
    · cases h
    · split at h
      · simp at h
      · simp only [Run.done.injEq, Prod.mk.injEq, and_true] at h
        rw [← h]
        simp

/-- C14 on one successful call of each of the three finders. -/
theorem C14_witness :
    (FindStandardsControlByStandardsSubscriptionARNAndStandardsControlARN
        (controlClient ⟨[some ⟨[some controlA]⟩, some ⟨[some controlB, none]⟩], none⟩)
        "arn:subscription/cis" "arn:control/b" = .done (some controlB, none) ∧
      (some controlB : Option StandardsControl) ≠ none) ∧
    (FindStandardsSubscription
        (subscriptionClient ⟨[none, some ⟨[none, some subscriptionFailed]⟩], none⟩) ⟨[]⟩ =
        .done (some subscriptionFailed, none) ∧
      (some subscriptionFailed : Option StandardsSubscription) ≠ none) ∧
    (FindStandardsSubscriptionByARN
        (subscriptionClient ⟨[none, some ⟨[none, some subscriptionReady]⟩], none⟩)
        "arn:subscription/cis" = .done (some subscriptionReady, none) ∧
      (some subscriptionReady : Option StandardsSubscription) ≠ none) :=
  ⟨⟨by decide, (C14_success_has_record
      (controlClient ⟨[some ⟨[some controlA]⟩, some ⟨[some controlB, none]⟩], none⟩)).1
      "arn:subscription/cis" "arn:control/b" (some controlB) (by decide)⟩,
    ⟨by decide, (C14_success_has_record
      (subscriptionClient ⟨[none, some ⟨[none, some subscriptionFailed]⟩], none⟩)).2.1
      ⟨[]⟩ (some subscriptionFailed) (by decide)⟩,
    ⟨by decide, (C14_success_has_record
      (subscriptionClient ⟨[none, some ⟨[none, some subscriptionReady]⟩], none⟩)).2.2
      "arn:subscription/cis" (some subscriptionReady) (by decide)⟩⟩

/-- C15: composing finders do not wrap errors again. Whenever
`FindStandardsSubscriptions` returns an error, `FindStandardsSubscription`
returns a nil record and that same error; whenever `FindStandardsSubscription`
returns an error, `FindStandardsSubscriptionByARN` returns a nil record and
that same error; and an error returned by `FindStandardsSubscriptionByARN` is
either the error `FindStandardsSubscription` returned or the not-found error
of the status sentinel. -/
theorem C15_errors_not_rewrapped (conn : SecurityHub) :
    (∀ (input : GetEnabledStandardsInput) (output : List (Option StandardsSubscription))
        (e : Error GetEnabledStandardsInput),
      FindStandardsSubscriptions conn input = .done (output, some e) →
      FindStandardsSubscription conn input = .done (none, some e)) ∧
    (∀ (arn : String) (output : Option StandardsSubscription)
        (e : Error GetEnabledStandardsInput),
      FindStandardsSubscription conn { StandardsSubscriptionArns := aws.StringSlice [arn] } =
        .done (output, some e) →
      FindStandardsSubscriptionByARN conn arn = .done (none, some e)) ∧
    (∀ (arn : String) (rec : Option StandardsSubscription) (e : Error GetEnabledStandardsInput),
      FindStandardsSubscriptionByARN conn arn = .done (rec, some e) →
      (∃ output,
        FindStandardsSubscription conn { StandardsSubscriptionArns := aws.StringSlice [arn] } =
          .done (output, some e)) ∨
      e = .notFound
        { LastError := none
          LastRequest := { StandardsSubscriptionArns := aws.StringSlice [arn] }
          Message := StandardsStatusFailed }) := by
  refine ⟨?_, ?_, ?_⟩
  · intro input output e h
    simp only [FindStandardsSubscription, h]
  · intro arn output e h
    simp only [FindStandardsSubscriptionByARN, h]
  · intro arn rec e h
    simp only [FindStandardsSubscriptionByARN] at h
    split at h
    · cases h
    · rename_i out err hsub
      left
      simp only [Run.done.injEq, Prod.mk.injEq, Option.some.injEq] at h
      exact ⟨out, by rw [hsub, h.2]⟩
    · cases h
    · rename_i out hsub
      split at h
      · rename_i hfailed
        right
        have hstatus : aws.StringValue out.StandardsStatus = StandardsStatusFailed := by
          simpa using hfailed
        simp only [Run.done.injEq, Prod.mk.injEq, Option.some.injEq] at h
        rw [← h.2, hstatus]
      · simp at h


/-- C15 on a listing that fails with the resource-not-found code, on a listing
with two entries, and on a listing whose sole entry has the status `FAILED`. -/
theorem C15_witness :
    FindStandardsSubscription
        (subscriptionClient ⟨[some ⟨[some subscriptionReady]⟩], some errResourceNotFound⟩)
        ⟨[some "arn:subscription/cis"]⟩ =
      .done (none, some (.notFound
        { LastError := some errResourceNotFound
          LastRequest := ⟨[some "arn:subscription/cis"]⟩
          Message := "" })) ∧
    FindStandardsSubscriptionByARN
        (subscriptionClient ⟨[some ⟨[some subscriptionReady, some subscriptionFailed]⟩], none⟩)
        "arn:subscription/cis" =
      .done (none, some (.tooManyResults 2 ⟨[some "arn:subscription/cis"]⟩)) ∧
    ((∃ output,
        FindStandardsSubscription
          (subscriptionClient ⟨[some ⟨[some subscriptionFailed]⟩], none⟩)
          { StandardsSubscriptionArns := aws.StringSlice ["arn:subscription/pci"] } =
          .done (output, some (.notFound
            { LastError := none
              LastRequest := ⟨[some "arn:subscription/pci"]⟩
              Message := "FAILED" }))) ∨
      (Error.notFound
        { LastError := none
          LastRequest := ⟨[some "arn:subscription/pci"]⟩
          Message := "FAILED" } : Error GetEnabledStandardsInput) =
        .notFound
          { LastError := none
            LastRequest := { StandardsSubscriptionArns := aws.StringSlice ["arn:subscription/pci"] }
            Message := StandardsStatusFailed }) :=
  ⟨(C15_errors_not_rewrapped
      (subscriptionClient ⟨[some ⟨[some subscriptionReady]⟩], some errResourceNotFound⟩)).1
      ⟨[some "arn:subscription/cis"]⟩ [] _ (by decide),
    (C15_errors_not_rewrapped
      (subscriptionClient ⟨[some ⟨[some subscriptionReady, some subscriptionFailed]⟩], none⟩)).2.1
      "arn:subscription/cis" none _ (by decide),
    (C15_errors_not_rewrapped
      (subscriptionClient ⟨[some ⟨[some subscriptionFailed]⟩], none⟩)).2.2
      "arn:subscription/pci" none _ (by decide)⟩

/-- C16: whenever `FindStandardsSubscription` succeeds on the single-ARN filter
request with a record whose `StandardsStatus` is absent or is any string other
than the Failed sentinel, `FindStandardsSubscriptionByARN` returns that same
record with a nil error. Hence, given a successful reduction,
`FindStandardsSubscriptionByARN` returns a not-found error exactly when the
status is the Failed sentinel. -/
theorem C16_status_other_than_failed (conn : SecurityHub) (arn : String)
    (s : StandardsSubscription)
    (h : FindStandardsSubscription conn { StandardsSubscriptionArns := aws.StringSlice [arn] } =
      .done (some s, none)) :
    (s.StandardsStatus = none → FindStandardsSubscriptionByARN conn arn = .done (some s, none)) ∧
    (∀ status, s.StandardsStatus = some status → status ≠ StandardsStatusFailed →
      FindStandardsSubscriptionByARN conn arn = .done (some s, none)) ∧
    ((∃ rec nf, FindStandardsSubscriptionByARN conn arn = .done (rec, some (.notFound nf))) ↔
      s.StandardsStatus = some StandardsStatusFailed) := by
  have hby := FindStandardsSubscriptionByARN_of_success conn arn s h
  refine ⟨?_, ?_, ?_⟩
  · intro hnone
    rw [hby, if_neg (by rw [hnone]; simp)]
  · intro status hstatus hne
    rw [hby, if_neg (by rw [hstatus]; simpa using hne)]
  · constructor
    · rintro ⟨rec, nf, hnf⟩
      by_contra hne
      rw [hby, if_neg hne] at hnf
      simp at hnf
    · intro hfailed
      rw [hby, if_pos hfailed]
      exact ⟨none, _, rfl⟩

/-- C16 on a listing whose sole entry has the status `READY`. -/
theorem C16_witness :
    FindStandardsSubscription
        (subscriptionClient ⟨[some ⟨[some subscriptionReady]⟩], none⟩)
        { StandardsSubscriptionArns := aws.StringSlice ["arn:subscription/cis"] } =
      .done (some subscriptionReady, none) ∧
    FindStandardsSubscriptionByARN
        (subscriptionClient ⟨[some ⟨[some subscriptionReady]⟩], none⟩) "arn:subscription/cis" =
      .done (some subscriptionReady, none) :=
  ⟨by decide,
    (C16_status_other_than_failed
      (subscriptionClient ⟨[some ⟨[some subscriptionReady]⟩], none⟩) "arn:subscription/cis"
      subscriptionReady (by decide)).2.1 "READY" rfl (by decide)⟩

/-! ## Results as functions of the entries served -/

theorem paginate_err_from_listing {P σ : Type} (err : Option UpstreamError)
    (fn : σ → Option P → Bool → Run (σ × Bool)) :
    ∀ (pages : List (Option P)) (s : σ) (n : Nat) (r : Paged σ),
      paginate err fn pages s n = .done r → r.err = none ∨ r.err = err := by
  intro pages
  induction pages with
  | nil =>
    intro s n r h
    cases err with
    | none =>
      simp only [paginate, Run.done.injEq] at h
      rw [← h]; simp
    | some e =>
      simp only [paginate, Run.done.injEq] at h
      rw [← h]; simp
  | cons p rest ih =>
    intro s n r h
    rw [paginate_cons] at h
    split at h
    · cases h
    · exact ih _ _ r h
    · simp only [Run.done.injEq] at h
      rw [← h]; simp

theorem FindAdminAccount_eq (conn : SecurityHub) (acct : String) :
    FindAdminAccount conn acct =
      .done (FindAdminAccount.scan acct
          (adminEntries (conn.ListOrganizationAdminAccounts { MaxResults := none }).pages),
        if (FindAdminAccount.scan acct
            (adminEntries (conn.ListOrganizationAdminAccounts { MaxResults := none }).pages)).isSome
        then none
        else (conn.ListOrganizationAdminAccounts { MaxResults := none }).err.map
          Error.upstream) := by
  obtain ⟨k, hk⟩ := paginate_admin acct
    (conn.ListOrganizationAdminAccounts { MaxResults := none }).err
    (conn.ListOrganizationAdminAccounts { MaxResults := none }).pages none 0
  simp only [FindAdminAccount, SecurityHub.ListOrganizationAdminAccountsPagesWithContext,
    Listing.PagesWithContext, hk]
  cases FindAdminAccount.scan acct
    (adminEntries (conn.ListOrganizationAdminAccounts { MaxResults := none }).pages) <;> simp

theorem FindStandardsControl_eq (conn : SecurityHub) (sub target : String) :
    FindStandardsControlByStandardsSubscriptionARNAndStandardsControlARN conn sub target =
      match FindStandardsControl.scan target
          (controlEntries (conn.DescribeStandardsControls
            { StandardsSubscriptionArn := some sub }).pages) with
      | .nilDeref => .nilDeref
      | .done (some c) => .done (some c, none)
      | .done none =>
        if tfawserr.ErrCodeEquals
            (conn.DescribeStandardsControls { StandardsSubscriptionArn := some sub }).err
            ErrCodeResourceNotFoundException then
          .done (none, some (.notFound
            { LastError :=
                (conn.DescribeStandardsControls { StandardsSubscriptionArn := some sub }).err
              LastRequest := { StandardsSubscriptionArn := some sub }
              Message := "" }))
        else
          match (conn.DescribeStandardsControls { StandardsSubscriptionArn := some sub }).err with
          | some err => .done (none, some (.upstream err))
          | none => .done (none, some (tfresource.NewEmptyResultError
              { StandardsSubscriptionArn := some sub })) := by
  have h := paginate_control target
    (conn.DescribeStandardsControls { StandardsSubscriptionArn := some sub }).err
    (conn.DescribeStandardsControls { StandardsSubscriptionArn := some sub }).pages none 0
  simp only [FindStandardsControlByStandardsSubscriptionARNAndStandardsControlARN,
    SecurityHub.DescribeStandardsControlsPagesWithContext, Listing.PagesWithContext]
  cases hscan : FindStandardsControl.scan target
      (controlEntries (conn.DescribeStandardsControls
        { StandardsSubscriptionArn := some sub }).pages) with
  | nilDeref =>
    rw [hscan] at h
    simp [h]
  | done r =>
    rw [hscan] at h
    cases r with
    | some c =>
      obtain ⟨k, hk⟩ := h
      simp [hk, tfawserr.ErrCodeEquals]
    | none =>
      obtain ⟨k, hk⟩ := h
      simp only [hk]

theorem adminEntries_insert (pre post : List (Option ListOrganizationAdminAccountsOutput))
    (q : Option ListOrganizationAdminAccountsOutput) (hq : q = none ∨ q = some ⟨[]⟩) :
    adminEntries (pre ++ q :: post) = adminEntries (pre ++ post) := by
  induction pre with
  | nil => rcases hq with hq | hq <;> subst hq <;> simp [adminEntries]
  | cons p pre ih => cases p <;> simp [adminEntries, ih]

theorem controlEntries_insert (pre post : List (Option DescribeStandardsControlsOutput))
    (q : Option DescribeStandardsControlsOutput) (hq : q = none ∨ q = some ⟨[]⟩) :
    controlEntries (pre ++ q :: post) = controlEntries (pre ++ post) := by
  induction pre with
  | nil => rcases hq with hq | hq <;> subst hq <;> simp [controlEntries]
  | cons p pre ih => cases p <;> simp [controlEntries, ih]

theorem subscriptionEntries_insert (pre post : List (Option GetEnabledStandardsOutput))
    (q : Option GetEnabledStandardsOutput) (hq : q = none ∨ q = some ⟨[]⟩) :
    subscriptionEntries (pre ++ q :: post) = subscriptionEntries (pre ++ post) := by
  induction pre with
  | nil => rcases hq with hq | hq <;> subst hq <;> simp [subscriptionEntries]
  | cons p pre ih => cases p <;> simp [subscriptionEntries, ih]

/-- C17: `FindAdminAccount` always returns, and never returns both a non-nil
record and a non-nil error: a non-nil record comes with a nil error and a
non-nil error comes with a nil record. The pagination primitive returns an
error only for a request that failed and none once the callback asked to stop. -/
theorem C17_FindAdminAccount_record_xor_error (conn : SecurityHub) (adminAccountID : String) :
    ∃ (rec : Option AdminAccount) (err : Option (Error ListOrganizationAdminAccountsInput)),
      FindAdminAccount conn adminAccountID = .done (rec, err) ∧
      (rec ≠ none → err = none) ∧ (err ≠ none → rec = none) := by
  refine ⟨_, _, FindAdminAccount_eq conn adminAccountID, ?_, ?_⟩
  · intro hrec
    cases hscan : FindAdminAccount.scan adminAccountID
        (adminEntries (conn.ListOrganizationAdminAccounts { MaxResults := none }).pages) with
    | none => exact absurd hscan hrec
    | some a => simp
  · intro herr
    cases hscan : FindAdminAccount.scan adminAccountID
        (adminEntries (conn.ListOrganizationAdminAccounts { MaxResults := none }).pages) with
    | none => rfl
    | some a => simp [hscan] at herr

/-! ## Nil pages and nil entries -/

/-- C18: nil pages are neutral. For `FindAdminAccount`, the standards-control
finder and `FindStandardsSubscriptions`, a listing with a nil page, or a page
with an empty entry list, inserted at any place yields the same record or list
and the same error as the listing without it; and on a nil page that is not
the last one each page callback leaves its variable unchanged and returns true,
so that pagination goes on. -/
theorem C18_nil_pages_neutral (conn conn' : SecurityHub) (err : Option UpstreamError) :
    (∀ (adminAccountID : String) (pre post : List (Option ListOrganizationAdminAccountsOutput))
        (q : Option ListOrganizationAdminAccountsOutput),
      q = none ∨ q = some ⟨[]⟩ →
      conn.ListOrganizationAdminAccounts { MaxResults := none } = ⟨pre ++ post, err⟩ →
      conn'.ListOrganizationAdminAccounts { MaxResults := none } = ⟨pre ++ q :: post, err⟩ →
      FindAdminAccount conn' adminAccountID = FindAdminAccount conn adminAccountID) ∧
    (∀ (standardsSubscriptionARN standardsControlARN : String)
        (pre post : List (Option DescribeStandardsControlsOutput))
        (q : Option DescribeStandardsControlsOutput),
      q = none ∨ q = some ⟨[]⟩ →
      conn.DescribeStandardsControls
        { StandardsSubscriptionArn := some standardsSubscriptionARN } = ⟨pre ++ post, err⟩ →
      conn'.DescribeStandardsControls
        { StandardsSubscriptionArn := some standardsSubscriptionARN } =
          ⟨pre ++ q :: post, err⟩ →
      FindStandardsControlByStandardsSubscriptionARNAndStandardsControlARN conn'
          standardsSubscriptionARN standardsControlARN =
        FindStandardsControlByStandardsSubscriptionARNAndStandardsControlARN conn
          standardsSubscriptionARN standardsControlARN) ∧
    (∀ (input : GetEnabledStandardsInput) (pre post : List (Option GetEnabledStandardsOutput))
        (q : Option GetEnabledStandardsOutput),
      q = none ∨ q = some ⟨[]⟩ →
      conn.GetEnabledStandards input = ⟨pre ++ post, err⟩ →
      conn'.GetEnabledStandards input = ⟨pre ++ q :: post, err⟩ →
      FindStandardsSubscriptions conn' input = FindStandardsSubscriptions conn input) ∧
    (∀ (adminAccountID : String) (result : Option AdminAccount),
      FindAdminAccount.fn adminAccountID result none false = .done (result, true)) ∧
    (∀ (standardsControlARN : String) (output : Option StandardsControl),
      FindStandardsControl.fn standardsControlARN output none false = .done (output, true)) ∧
    (∀ (output : List (Option StandardsSubscription)),
      FindStandardsSubscriptions.fn output none false = .done (output, true)) := by
  refine ⟨?_, ?_, ?_, fun _ _ => rfl, fun _ _ => rfl, fun _ => rfl⟩
  · intro acct pre post q hq h h'
    rw [FindAdminAccount_eq conn' acct, FindAdminAccount_eq conn acct, h, h']
    simp only [adminEntries_insert pre post q hq]
  · intro sub target pre post q hq h h'
    rw [FindStandardsControl_eq conn' sub target, FindStandardsControl_eq conn sub target, h, h']
    simp only [controlEntries_insert pre post q hq]
  · intro input pre post q hq h h'
    rw [FindStandardsSubscriptions_eq conn' input, FindStandardsSubscriptions_eq conn input, h, h']
    simp only [subscriptionEntries_insert pre post q hq]

/-- C18 with a nil page put between two pages, for each of the three finders. -/
theorem C18_witness :
    FindAdminAccount
        (adminClient ⟨[some ⟨[some accountA]⟩, none, some ⟨[some accountB]⟩], none⟩)
        "222222222222" =
      FindAdminAccount (adminClient ⟨[some ⟨[some accountA]⟩, some ⟨[some accountB]⟩], none⟩)
        "222222222222" ∧
    FindStandardsControlByStandardsSubscriptionARNAndStandardsControlARN
        (controlClient ⟨[some ⟨[some controlA]⟩, some ⟨[]⟩, some ⟨[some controlB]⟩],
          some errCancelled⟩) "arn:subscription/cis" "arn:control/x" =
      FindStandardsControlByStandardsSubscriptionARNAndStandardsControlARN
        (controlClient ⟨[some ⟨[some controlA]⟩, some ⟨[some controlB]⟩], some errCancelled⟩)
        "arn:subscription/cis" "arn:control/x" ∧
    FindStandardsSubscriptions
        (subscriptionClient ⟨[some ⟨[some subscriptionReady]⟩, none], none⟩) ⟨[]⟩ =
      FindStandardsSubscriptions
        (subscriptionClient ⟨[some ⟨[some subscriptionReady]⟩], none⟩) ⟨[]⟩ :=
  ⟨(C18_nil_pages_neutral
      (adminClient ⟨[some ⟨[some accountA]⟩, some ⟨[some accountB]⟩], none⟩)
      (adminClient ⟨[some ⟨[some accountA]⟩, none, some ⟨[some accountB]⟩], none⟩) none).1
      "222222222222" [some ⟨[some accountA]⟩] [some ⟨[some accountB]⟩] none (Or.inl rfl) rfl rfl,
    (C18_nil_pages_neutral
      (controlClient ⟨[some ⟨[some controlA]⟩, some ⟨[some controlB]⟩], some errCancelled⟩)
      (controlClient ⟨[some ⟨[some controlA]⟩, some ⟨[]⟩, some ⟨[some controlB]⟩],
        some errCancelled⟩) (some errCancelled)).2.1
      "arn:subscription/cis" "arn:control/x" [some ⟨[some controlA]⟩] [some ⟨[some controlB]⟩]
      (some ⟨[]⟩) (Or.inr rfl) rfl rfl,
    (C18_nil_pages_neutral
      (subscriptionClient ⟨[some ⟨[some subscriptionReady]⟩], none⟩)
      (subscriptionClient ⟨[some ⟨[some subscriptionReady]⟩, none], none⟩) none).2.2.1
      ⟨[]⟩ [some ⟨[some subscriptionReady]⟩] [] none (Or.inl rfl) rfl rfl⟩

theorem scan_control_nil_first (target : String) (before : List StandardsControl)
    (after : List (Option StandardsControl))
    (hbefore : ∀ x ∈ before, aws.StringValue x.StandardsControlArn ≠ target) :
    FindStandardsControl.scan target (before.map some ++ none :: after) = .nilDeref := by
  rw [scan_control_append, scan_control_no_match target before hbefore]
  simp [FindStandardsControl.scan]

/-- C19: the standards-control scan is total only without nil entries. When every
control entry up to and including the first match is non-nil, or when no entry
is nil and none matches, the finder never dereferences a nil control: it
returns. It has no nil-entry guard: when a nil entry comes before any match,
whatever follows it, the entry is dereferenced and the finder panics, whereas
`FindAdminAccount` and `FindStandardsSubscriptions` skip nil entries and always
return. -/
theorem C19_control_scan_without_nil_guard (conn : SecurityHub) :
    (∀ (standardsSubscriptionARN standardsControlARN : String) (before : List StandardsControl)
        (c : StandardsControl) (after : List (Option StandardsControl)),
      controlEntries (conn.DescribeStandardsControls
        { StandardsSubscriptionArn := some standardsSubscriptionARN }).pages =
          before.map some ++ some c :: after →
      (∀ x ∈ before, aws.StringValue x.StandardsControlArn ≠ standardsControlARN) →
      aws.StringValue c.StandardsControlArn = standardsControlARN →
      FindStandardsControlByStandardsSubscriptionARNAndStandardsControlARN conn
        standardsSubscriptionARN standardsControlARN = .done (some c, none)) ∧
    (∀ (standardsSubscriptionARN standardsControlARN : String) (all : List StandardsControl),
      controlEntries (conn.DescribeStandardsControls
        { StandardsSubscriptionArn := some standardsSubscriptionARN }).pages = all.map some →
      (∀ x ∈ all, aws.StringValue x.StandardsControlArn ≠ standardsControlARN) →
      ∃ err, FindStandardsControlByStandardsSubscriptionARNAndStandardsControlARN conn
        standardsSubscriptionARN standardsControlARN = .done (none, some err)) ∧
    (∀ (standardsSubscriptionARN standardsControlARN : String) (before : List StandardsControl)
        (after : List (Option StandardsControl)),
      controlEntries (conn.DescribeStandardsControls
        { StandardsSubscriptionArn := some standardsSubscriptionARN }).pages =
          before.map some ++ none :: after →
      (∀ x ∈ before, aws.StringValue x.StandardsControlArn ≠ standardsControlARN) →
      FindStandardsControlByStandardsSubscriptionARNAndStandardsControlARN conn
        standardsSubscriptionARN standardsControlARN = .nilDeref) ∧
    (∀ (adminAccountID : String), FindAdminAccount conn adminAccountID ≠ .nilDeref) ∧
    (∀ (input : GetEnabledStandardsInput), FindStandardsSubscriptions conn input ≠ .nilDeref) ∧
    (∀ (adminAccountID : String) (rest : List (Option AdminAccount)),
      FindAdminAccount.scan adminAccountID (none :: rest) =
        FindAdminAccount.scan adminAccountID rest) := by
  refine ⟨?_, ?_, ?_, ?_, ?_, fun _ _ => rfl⟩
  · intro sub target before c after hentries hbefore hc
    rw [FindStandardsControl_eq conn sub target, hentries,
      scan_control_first_match target before c after hbefore hc]
  · intro sub target all hentries hall
    rw [FindStandardsControl_eq conn sub target, hentries, scan_control_no_match target all hall]
    simp only
    split
    · exact ⟨_, rfl⟩
    · split
      · exact ⟨_, rfl⟩
      · exact ⟨_, rfl⟩
  · intro sub target before after hentries hbefore
    rw [FindStandardsControl_eq conn sub target, hentries,
      scan_control_nil_first target before after hbefore]
  · intro acct h
    rw [FindAdminAccount_eq conn acct] at h
    cases h
  · intro input h
    rw [FindStandardsSubscriptions_eq conn input] at h
    split at h
    · cases h
    · split at h
      · cases h
      · split at h <;> cases h

/-- C19 on a page whose nil entry follows the match, on a listing without nil
entry and without match, and on a page whose nil entry precedes the match. -/
theorem C19_witness :
    FindStandardsControlByStandardsSubscriptionARNAndStandardsControlARN
        (controlClient ⟨[some ⟨[some controlA, some controlB, none]⟩], none⟩)
        "arn:subscription/cis" "arn:control/b" = .done (some controlB, none) ∧
    (∃ err, FindStandardsControlByStandardsSubscriptionARNAndStandardsControlARN
        (controlClient ⟨[some ⟨[some controlA]⟩, none, some ⟨[some controlB]⟩], none⟩)
        "arn:subscription/cis" "arn:control/x" = .done (none, some err)) ∧
    FindStandardsControlByStandardsSubscriptionARNAndStandardsControlARN
        (controlClient ⟨[some ⟨[some controlA, none, some controlB]⟩], none⟩)
        "arn:subscription/cis" "arn:control/b" = .nilDeref :=
  ⟨(C19_control_scan_without_nil_guard
      (controlClient ⟨[some ⟨[some controlA, some controlB, none]⟩], none⟩)).1
      "arn:subscription/cis" "arn:control/b" [controlA] controlB [none] rfl
      (by decide) (by decide),
    (C19_control_scan_without_nil_guard
      (controlClient ⟨[some ⟨[some controlA]⟩, none, some ⟨[some controlB]⟩], none⟩)).2.1
      "arn:subscription/cis" "arn:control/x" [controlA, controlB] rfl (by decide),
    (C19_control_scan_without_nil_guard
      (controlClient ⟨[some ⟨[some controlA, none, some controlB]⟩], none⟩)).2.2.1
      "arn:subscription/cis" "arn:control/b" [controlA] [some controlB] rfl (by decide)⟩

end Securityhub
